import Mathlib

/-!
# BoundingBox: an axis-aligned 2D bounding box

Shallow embedding of `src/BoundingBox.cc` / `src/BoundingBox.h` (namespace `geo`).

## Numbers

The C++ `double` is embedded as `Dbl`: a finite value (carried exactly, as a
rational), the two infinities, or NaN.  Comparisons follow IEEE-754: every
ordered comparison with a NaN operand is false, `-inf` is below and `+inf`
above every finite value.  Arithmetic on finite operands is exact (no
rounding); on the special values it follows IEEE-754 (`inf - inf = NaN`,
`0 * inf = NaN`, any operation on NaN gives NaN).  The sign of zero is not
tracked: the two IEEE zeros compare equal, and a zero divisor counts as `+0`.

## State

A member function that mutates `*this` is a function taking the receiver and
returning the new receiver, paired with the C++ return value when there is one.
-/

namespace geo

/-! ## The `double` model -/

/-- A C++ `double`: NaN, minus infinity, a finite value, plus infinity. -/
inductive Dbl where
  | nan : Dbl
  | ninf : Dbl
  | fin : ℚ → Dbl
  | pinf : Dbl
  deriving DecidableEq

namespace Dbl

/-- The C++ `a < b` on doubles. -/
def lt : Dbl → Dbl → Bool
  | nan, _ => false
  | _, nan => false
  | ninf, ninf => false
  | ninf, _ => true
  | fin _, ninf => false
  | fin a, fin b => decide (a < b)
  | fin _, pinf => true
  | pinf, _ => false

/-- The C++ `a > b` on doubles. -/
def gt (a b : Dbl) : Bool := lt b a

/-- The C++ `a <= b` on doubles. -/
def le : Dbl → Dbl → Bool
  | nan, _ => false
  | _, nan => false
  | ninf, _ => true
  | fin _, ninf => false
  | fin a, fin b => decide (a ≤ b)
  | fin _, pinf => true
  | pinf, pinf => true
  | pinf, _ => false

/-- The C++ `a >= b` on doubles. -/
def ge (a b : Dbl) : Bool := le b a

/-- The C++ unary minus. -/
def neg : Dbl → Dbl
  | nan => nan
  | ninf => pinf
  | fin a => fin (-a)
  | pinf => ninf

/-- The C++ `a + b` on doubles, exact on finite operands. -/
def add : Dbl → Dbl → Dbl
  | nan, _ => nan
  | _, nan => nan
  | ninf, pinf => nan
  | pinf, ninf => nan
  | ninf, _ => ninf
  | pinf, _ => pinf
  | fin _, ninf => ninf
  | fin _, pinf => pinf
  | fin a, fin b => fin (a + b)

/-- The C++ `a - b` on doubles, exact on finite operands. -/
def sub (a b : Dbl) : Dbl := add a (neg b)

/-- The product of an infinity of sign `s` (true: positive) with the finite `a`. -/
def mulInf (s : Bool) (a : ℚ) : Dbl :=
  if a = 0 then nan
  else if (decide (0 < a)) = s then pinf else ninf

/-- The C++ `a * b` on doubles, exact on finite operands. -/
def mul : Dbl → Dbl → Dbl
  | nan, _ => nan
  | _, nan => nan
  | fin a, fin b => fin (a * b)
  | fin a, pinf => mulInf true a
  | fin a, ninf => mulInf false a
  | pinf, fin b => mulInf true b
  | ninf, fin b => mulInf false b
  | pinf, pinf => pinf
  | ninf, ninf => pinf
  | pinf, ninf => ninf
  | ninf, pinf => ninf

/-- `std::min(a, b)`: `b` when `b < a`, otherwise `a`. -/
def min (a b : Dbl) : Dbl := if lt b a then b else a

/-- `std::max(a, b)`: `b` when `a < b`, otherwise `a`. -/
def max (a b : Dbl) : Dbl := if lt a b then b else a

/-- Neither an infinity nor NaN. -/
def isFinite : Dbl → Bool
  | fin _ => true
  | _ => false

/-- The value is NaN. -/
def isNaN : Dbl → Bool
  | nan => true
  | _ => false

/-- The value `b` is `a` itself or strictly below it: what a lower bound may
become under growth. -/
def lowered (a b : Dbl) : Prop := b = a ∨ lt b a = true

/-- The value `b` is `a` itself or strictly above it: what an upper bound may
become under growth. -/
def raised (a b : Dbl) : Prop := b = a ∨ lt a b = true

/-- The quotient of an infinity of sign `s` (true: positive) by the finite `b`;
a zero `b` counts as `+0`. -/
def infDiv (s : Bool) (b : ℚ) : Dbl :=
  if (decide (0 ≤ b)) = s then pinf else ninf

/-- The C++ `a / b` on doubles, exact on finite operands with a nonzero
divisor. A zero divisor counts as `+0`: a nonzero finite dividend gives the
infinity of its own sign, `0 / 0` gives NaN. -/
def div : Dbl → Dbl → Dbl
  | nan, _ => nan
  | _, nan => nan
  | fin a, fin b =>
    if b = 0 then (if a = 0 then nan else if 0 < a then pinf else ninf) else fin (a / b)
  | fin _, pinf => fin 0
  | fin _, ninf => fin 0
  | pinf, fin b => infDiv true b
  | ninf, fin b => infDiv false b
  | pinf, pinf => nan
  | pinf, ninf => nan
  | ninf, pinf => nan
  | ninf, ninf => nan

end Dbl

/-! ## The data model -/

/-- Modelled from the spec: `Point2d` (header `Point2d.h` is not part of the
sources) is a pair of doubles read by `getX`/`getY` and written by
`setX`/`setY`. -/
structure Point2d where
  x : Dbl
  y : Dbl
  deriving DecidableEq

namespace Point2d

/-- `Point2d::getX`. -/
def getX (p : Point2d) : Dbl := p.x

/-- `Point2d::getY`. -/
def getY (p : Point2d) : Dbl := p.y

/-- `Point2d::setX`. -/
def setX (p : Point2d) (v : Dbl) : Point2d := { p with x := v }

/-- `Point2d::setY`. -/
def setY (p : Point2d) (v : Dbl) : Point2d := { p with y := v }

/-- Modelled from the spec: a default-constructed `Point2d` (`Point2d lb;`).
Its constructor is not part of the sources; every use below overwrites both
coordinates before reading them, so the value chosen here is never observed. -/
def init : Point2d := { x := Dbl.fin 0, y := Dbl.fin 0 }

/-- No coordinate of the point is NaN. -/
def noNaN (p : Point2d) : Bool := !(p.x.isNaN || p.y.isNaN)

end Point2d

/-- The private members of `class BoundingBox`, in declaration order. -/
structure BoundingBox where
  m_minX : Dbl
  m_maxX : Dbl
  m_minY : Dbl
  m_maxY : Dbl
  deriving DecidableEq

namespace BoundingBox

/-- `BoundingBox::BoundingBox()`: the empty box. -/
def default : BoundingBox :=
  { m_minX := Dbl.pinf, m_maxX := Dbl.neg Dbl.pinf,
    m_minY := Dbl.pinf, m_maxY := Dbl.neg Dbl.pinf }

/-- `BoundingBox::BoundingBox(double minx, double maxx, double miny, double maxy)`. -/
def ofBounds (minx maxx miny maxy : Dbl) : BoundingBox :=
  { m_minX := minx, m_maxX := maxx, m_minY := miny, m_maxY := maxy }

/-- `BoundingBox::getMinX`. -/
def getMinX (b : BoundingBox) : Dbl := b.m_minX

/-- `BoundingBox::getMaxX`. -/
def getMaxX (b : BoundingBox) : Dbl := b.m_maxX

/-- `BoundingBox::getMinY`. -/
def getMinY (b : BoundingBox) : Dbl := b.m_minY

/-- `BoundingBox::getMaxY`. -/
def getMaxY (b : BoundingBox) : Dbl := b.m_maxY

/-- `BoundingBox::setMinX`. -/
def setMinX (b : BoundingBox) (minx : Dbl) : BoundingBox := { b with m_minX := minx }

/-- `BoundingBox::setMaxX`. -/
def setMaxX (b : BoundingBox) (maxx : Dbl) : BoundingBox := { b with m_maxX := maxx }

/-- `BoundingBox::setMinY`. -/
def setMinY (b : BoundingBox) (miny : Dbl) : BoundingBox := { b with m_minY := miny }

/-- `BoundingBox::setMaxY`. -/
def setMaxY (b : BoundingBox) (maxy : Dbl) : BoundingBox := { b with m_maxY := maxy }

/-- `BoundingBox::leftBottomPoint`, returning the point it writes. -/
def leftBottomPoint (b : BoundingBox) (lb : Point2d) : Point2d :=
  (lb.setX b.m_minX).setY b.m_minY

/-- `BoundingBox::rightTopPoint`, returning the point it writes. -/
def rightTopPoint (b : BoundingBox) (lb : Point2d) : Point2d :=
  (lb.setX b.m_maxX).setY b.m_maxY

/-- `BoundingBox::valid`. -/
def valid (b : BoundingBox) : Bool :=
  Dbl.le b.m_minX b.m_maxX && Dbl.le b.m_minY b.m_maxY

/-- `BoundingBox::addPoint`: the four tests run in source order on the
receiver as updated so far; the result is the returned flag and the new
receiver. -/
def addPoint (b : BoundingBox) (point : Point2d) : Bool × BoundingBox :=
  let result := false
  let s1 := if Dbl.lt point.getX b.m_minX then (b.setMinX point.getX, true) else (b, result)
  let s2 := if Dbl.gt point.getX s1.1.m_maxX then (s1.1.setMaxX point.getX, true) else s1
  let s3 := if Dbl.lt point.getY s2.1.m_minY then (s2.1.setMinY point.getY, true) else s2
  let s4 := if Dbl.gt point.getY s3.1.m_maxY then (s3.1.setMaxY point.getY, true) else s3
  (s4.2, s4.1)

/-- The receiver after `addPoint`, the returned flag dropped. -/
def grow (b : BoundingBox) (point : Point2d) : BoundingBox := (b.addPoint point).2

/-- The box `b` is `a` with each lower bound kept or lowered and each upper
bound kept or raised. -/
def grown (a b : BoundingBox) : Prop :=
  Dbl.lowered a.m_minX b.m_minX ∧ Dbl.raised a.m_maxX b.m_maxX ∧
  Dbl.lowered a.m_minY b.m_minY ∧ Dbl.raised a.m_maxY b.m_maxY

/-- `BoundingBox::addPoints`: the loop over the array, carrying `ret` and the
receiver; `addPoint` runs on every element (`|` does not short-circuit).
`Point2dArray`, declared in the absent `Point2d.h`, is taken as a finite
sequence of points. -/
def addPoints (b : BoundingBox) (points : List Point2d) : Bool × BoundingBox :=
  points.foldl (fun (acc : Bool × BoundingBox) p =>
    let r := addPoint acc.2 p
    (r.1 || acc.1, r.2)) (false, b)

/-- `BoundingBox::contains(const Point2d&)`. -/
def contains (b : BoundingBox) (point : Point2d) : Bool :=
  !(Dbl.gt point.getX b.m_maxX || Dbl.lt point.getX b.m_minX
    || Dbl.gt point.getY b.m_maxY || Dbl.lt point.getY b.m_minY)

/-- `BoundingBox::add`. -/
def add (b other : BoundingBox) : Bool × BoundingBox :=
  let lb := other.leftBottomPoint Point2d.init
  let rt := other.rightTopPoint Point2d.init
  if b.contains lb && b.contains rt then
    (false, b)
  else
    let b1 := (b.addPoint lb).2
    let b2 := (b1.addPoint rt).2
    (true, b2)

/-- `BoundingBox::intersects`, clause by clause as written in the source. -/
def intersects (b other : BoundingBox) : Bool :=
  !(Dbl.gt other.getMinX b.m_maxX
    || Dbl.lt other.getMaxX b.m_minX
    || Dbl.gt other.getMinX b.m_maxY
    || Dbl.lt other.getMaxY b.m_minY)

/-- `BoundingBox::roughContains`. -/
def roughContains (b : BoundingBox) (point : Point2d) : Bool :=
  let rough := Dbl.fin (1 / 100)
  !(Dbl.gt point.getX (Dbl.add b.m_maxX rough) || Dbl.lt point.getX (Dbl.sub b.m_minX rough)
    || Dbl.gt point.getY (Dbl.add b.m_maxY rough) || Dbl.lt point.getY (Dbl.sub b.m_minY rough))

/-- `BoundingBox::contains(const BoundingBox&)`. -/
def containsBox (b other : BoundingBox) : Bool :=
  Dbl.ge other.getMinX b.m_minX &&
  Dbl.le other.getMaxX b.m_maxX &&
  Dbl.ge other.getMinY b.m_minY &&
  Dbl.le other.getMaxY b.m_maxY

/-- `BoundingBox::width`. -/
def width (b : BoundingBox) : Dbl := Dbl.sub b.m_maxX b.m_minX

/-- `BoundingBox::height`. -/
def height (b : BoundingBox) : Dbl := Dbl.sub b.m_maxY b.m_minY

/-- `BoundingBox::center`, returning the point it writes. -/
def center (b : BoundingBox) (point : Point2d) : Point2d :=
  (point.setX (Dbl.mul (Dbl.fin (1 / 2)) (Dbl.add b.m_minX b.m_maxX))).setY
    (Dbl.mul (Dbl.fin (1 / 2)) (Dbl.add b.m_minY b.m_maxY))

/-- `BoundingBox::operator*=`, returning the new receiver. -/
def operatorMulAssign (b : BoundingBox) (ratio : Dbl) : BoundingBox :=
  let ctr := b.center Point2d.init
  let sx := Dbl.mul (Dbl.mul (Dbl.fin (1 / 2)) b.width) ratio
  let sy := Dbl.mul (Dbl.mul (Dbl.fin (1 / 2)) b.height) ratio
  { m_minX := Dbl.sub ctr.getX sx,
    m_maxX := Dbl.add ctr.getX sx,
    m_minY := Dbl.sub ctr.getY sy,
    m_maxY := Dbl.add ctr.getY sy }

/-- The message of the `std::invalid_argument` thrown by `operator[]`. -/
def indexError : String :=
  "index out of range, index 0: MinX, index 1: MinY, index 2: MaxX, index3:MaxY"

/-- `BoundingBox::operator[]`: the selected bound, or the thrown
`std::invalid_argument`. -/
def operatorIndex (b : BoundingBox) (index : Int) : Except String Dbl :=
  match index with
  | 0 => Except.ok b.m_minX
  | 1 => Except.ok b.m_minY
  | 2 => Except.ok b.m_maxX
  | 3 => Except.ok b.m_maxY
  | _ => Except.error indexError

/-- The separating-axis test the specification gives as the contract of
`intersects`:
`!(other.minX > this.maxX || other.maxX < this.minX || other.minY > this.maxY || other.maxY < this.minY)`. -/
def intersectsSpec (b other : BoundingBox) : Bool :=
  !(Dbl.gt other.m_minX b.m_maxX
    || Dbl.lt other.m_maxX b.m_minX
    || Dbl.gt other.m_minY b.m_maxY
    || Dbl.lt other.m_maxY b.m_minY)

/-- No bound of the box is NaN. -/
def noNaN (b : BoundingBox) : Bool :=
  !(b.m_minX.isNaN || b.m_maxX.isNaN || b.m_minY.isNaN || b.m_maxY.isNaN)

/-- Every bound of the box is finite. -/
def finiteBounds (b : BoundingBox) : Bool :=
  b.m_minX.isFinite && b.m_maxX.isFinite && b.m_minY.isFinite && b.m_maxY.isFinite

/-- The flags returned by the successive `addPoint` calls that `addPoints`
makes, in call order. -/
def addPointFlags : BoundingBox → List Point2d → List Bool
  | _, [] => []
  | b, p :: ps => (b.addPoint p).1 :: addPointFlags (b.addPoint p).2 ps

/-- Modelled from the spec: `BoundingBox::operator+=` is declared in
`BoundingBox.h` and defined nowhere in the sources. The specification has it
"combine with another box in place; equivalent in effect to `add(other)`":
the new receiver is the receiver `add(other)` leaves. -/
def operatorAddAssign (b other : BoundingBox) : BoundingBox := (b.add other).2

/-- `BoundingBox::operator/=`, returning the new receiver. -/
def operatorDivAssign (b : BoundingBox) (ratio : Dbl) : BoundingBox :=
  let ctr := b.center Point2d.init
  let sx := Dbl.div (Dbl.mul (Dbl.fin (1 / 2)) b.width) ratio
  let sy := Dbl.div (Dbl.mul (Dbl.fin (1 / 2)) b.height) ratio
  { m_minX := Dbl.sub ctr.getX sx,
    m_maxX := Dbl.add ctr.getX sx,
    m_minY := Dbl.sub ctr.getY sy,
    m_maxY := Dbl.add ctr.getY sy }

/-- The two-corner test `add` makes before growing:
`contains(lb) && contains(rt)` for the left-bottom and right-top corners of
`other`. -/
def containsCorners (b other : BoundingBox) : Bool :=
  b.contains (other.leftBottomPoint Point2d.init)
    && b.contains (other.rightTopPoint Point2d.init)

end BoundingBox

/-! ## Comparison and arithmetic facts about `Dbl` -/

namespace Dbl

@[simp] theorem lt_nan_left (a : Dbl) : lt nan a = false := by cases a <;> rfl
@[simp] theorem lt_nan_right (a : Dbl) : lt a nan = false := by cases a <;> rfl
@[simp] theorem lt_pinf_left (a : Dbl) : lt pinf a = false := by cases a <;> rfl
@[simp] theorem lt_ninf_right (a : Dbl) : lt a ninf = false := by cases a <;> rfl
@[simp] theorem lt_ninf_fin (a : ℚ) : lt ninf (fin a) = true := rfl
@[simp] theorem lt_ninf_pinf : lt ninf pinf = true := rfl
@[simp] theorem lt_fin_pinf (a : ℚ) : lt (fin a) pinf = true := rfl
@[simp] theorem lt_fin_fin (a b : ℚ) : lt (fin a) (fin b) = decide (a < b) := rfl

@[simp] theorem le_nan_left (a : Dbl) : le nan a = false := by cases a <;> rfl
@[simp] theorem le_nan_right (a : Dbl) : le a nan = false := by cases a <;> rfl
@[simp] theorem le_ninf_ninf : le ninf ninf = true := rfl
@[simp] theorem le_ninf_fin (a : ℚ) : le ninf (fin a) = true := rfl
@[simp] theorem le_ninf_pinf : le ninf pinf = true := rfl
@[simp] theorem le_fin_ninf (a : ℚ) : le (fin a) ninf = false := rfl
@[simp] theorem le_fin_fin (a b : ℚ) : le (fin a) (fin b) = decide (a ≤ b) := rfl
@[simp] theorem le_fin_pinf (a : ℚ) : le (fin a) pinf = true := rfl
@[simp] theorem le_pinf_ninf : le pinf ninf = false := rfl
@[simp] theorem le_pinf_fin (a : ℚ) : le pinf (fin a) = false := rfl
@[simp] theorem le_pinf_pinf : le pinf pinf = true := rfl

@[simp] theorem add_fin_fin (a b : ℚ) : add (fin a) (fin b) = fin (a + b) := rfl
@[simp] theorem sub_fin_fin (a b : ℚ) : sub (fin a) (fin b) = fin (a - b) := by
  simp [sub, neg, sub_eq_add_neg]
@[simp] theorem mul_fin_fin (a b : ℚ) : mul (fin a) (fin b) = fin (a * b) := rfl

theorem lt_irrefl (a : Dbl) : lt a a = false := by
  cases a <;> simp

theorem lt_ne {a b : Dbl} (h : lt a b = true) : a ≠ b := by
  intro e
  rw [e, lt_irrefl] at h
  exact Bool.false_ne_true h

theorem lt_asymm {a b : Dbl} (h : lt a b = true) : lt b a = false := by
  cases a <;> cases b <;> simp_all
  exact le_of_lt h

theorem lt_trans {a b c : Dbl} (h₁ : lt a b = true) (h₂ : lt b c = true) : lt a c = true := by
  cases a <;> cases b <;> cases c <;> simp_all
  exact h₁.trans h₂

/-- On operands that are not NaN, `a <= b` is the negation of `b < a`. -/
theorem le_eq_not_lt {a b : Dbl} (ha : a.isNaN = false) (hb : b.isNaN = false) :
    le a b = !lt b a := by
  cases a <;> cases b <;> simp_all [isNaN]
  rename_i x y
  by_cases h : x ≤ y <;> simp [h, not_lt.mpr, not_le.mp]

theorem le_imp_not_lt {a b : Dbl} (h : le a b = true) : lt b a = false := by
  cases a <;> cases b <;> simp_all

theorem min_idem_right (m x : Dbl) : min (min m x) x = min m x := by
  unfold min
  split_ifs <;> simp_all [lt_irrefl]

theorem max_idem_right (m x : Dbl) : max (max m x) x = max m x := by
  unfold max
  split_ifs <;> simp_all [lt_irrefl]

theorem min_right_comm (m x y : Dbl) : min (min m x) y = min (min m y) x := by
  unfold min
  cases m <;> cases x <;> cases y <;> simp <;> split_ifs <;> simp_all <;> linarith

theorem max_right_comm (m x y : Dbl) : max (max m x) y = max (max m y) x := by
  unfold max
  cases m <;> cases x <;> cases y <;> simp <;> split_ifs <;> simp_all <;> linarith

theorem min_ne_iff (a b : Dbl) : min a b ≠ a ↔ lt b a = true := by
  unfold min
  split_ifs with h
  · simp [h, lt_ne h]
  · simp [h]

theorem max_ne_iff (a b : Dbl) : max a b ≠ a ↔ lt a b = true := by
  unfold max
  split_ifs with h
  · simp [h, (lt_ne h).symm]
  · simp [h]

theorem lt_min_self (m x : Dbl) : lt x (min m x) = false := by
  unfold min
  split_ifs with h
  · exact lt_irrefl x
  · simpa using h

theorem max_lt_self (m x : Dbl) : lt (max m x) x = false := by
  unfold max
  split_ifs with h
  · exact lt_irrefl x
  · simpa using h

/-- On operands that are not NaN, `std::min` is the smaller of the two. -/
theorem min_is_least {a b : Dbl} (ha : a.isNaN = false) (hb : b.isNaN = false) :
    le (min a b) a = true ∧ le (min a b) b = true ∧ (min a b = a ∨ min a b = b) := by
  unfold min
  cases a <;> cases b <;> simp_all [isNaN]
  split_ifs <;> simp_all
  linarith

/-- On operands that are not NaN, `std::max` is the larger of the two. -/
theorem max_is_greatest {a b : Dbl} (ha : a.isNaN = false) (hb : b.isNaN = false) :
    le a (max a b) = true ∧ le b (max a b) = true ∧ (max a b = a ∨ max a b = b) := by
  unfold max
  cases a <;> cases b <;> simp_all [isNaN]
  split_ifs <;> simp_all
  linarith

theorem lowered_refl (a : Dbl) : lowered a a := Or.inl rfl

theorem raised_refl (a : Dbl) : raised a a := Or.inl rfl

theorem lowered_min (a x : Dbl) : lowered a (min a x) := by
  unfold lowered min
  split_ifs with h
  · exact Or.inr h
  · exact Or.inl rfl

theorem raised_max (a x : Dbl) : raised a (max a x) := by
  unfold raised max
  split_ifs with h
  · exact Or.inr h
  · exact Or.inl rfl

theorem lowered_trans {a b c : Dbl} (h₁ : lowered a b) (h₂ : lowered b c) : lowered a c := by
  rcases h₁ with rfl | h₁
  · exact h₂
  · rcases h₂ with rfl | h₂
    · exact Or.inr h₁
    · exact Or.inr (lt_trans h₂ h₁)

theorem raised_trans {a b c : Dbl} (h₁ : raised a b) (h₂ : raised b c) : raised a c := by
  rcases h₁ with rfl | h₁
  · exact h₂
  · rcases h₂ with rfl | h₂
    · exact Or.inr h₁
    · exact Or.inr (lt_trans h₁ h₂)

/-- A bound that was lowered and came back to its start never moved. -/
theorem lowered_cycle {a b : Dbl} (h₁ : lowered a b) (h₂ : lowered b a) : b = a := by
  rcases h₁ with h₁ | h₁
  · exact h₁
  · rcases h₂ with h₂ | h₂
    · exact h₂.symm
    · rw [lt_asymm h₁] at h₂
      exact absurd h₂ Bool.false_ne_true

theorem raised_cycle {a b : Dbl} (h₁ : raised a b) (h₂ : raised b a) : b = a := by
  rcases h₁ with h₁ | h₁
  · exact h₁
  · rcases h₂ with h₂ | h₂
    · exact h₂.symm
    · rw [lt_asymm h₁] at h₂
      exact absurd h₂ Bool.false_ne_true

/-- The lower bound after merging `x` then `y` is at most `x` exactly when
neither the old bound nor `x` is NaN. -/
theorem le_min_min_left (m x y : Dbl) :
    le (min (min m x) y) x = (!m.isNaN && !x.isNaN) := by
  unfold min
  cases m <;> cases x <;> cases y <;> simp [isNaN] <;> split_ifs <;> simp_all <;> linarith

/-- The upper bound after merging `x` then `y` is at least `y` exactly when
neither the old bound nor `y` is NaN. -/
theorem le_max_max_right (m x y : Dbl) :
    le y (max (max m x) y) = (!m.isNaN && !y.isNaN) := by
  unfold max
  cases m <;> cases x <;> cases y <;> simp [isNaN] <;> split_ifs <;> simp_all

/-- Relaxing an upper bound outward by a positive finite amount only admits more. -/
theorem lt_of_add_lt (m x : Dbl) (r : ℚ) (hr : 0 ≤ r) (h : lt (add m (fin r)) x = true) :
    lt m x = true := by
  cases m <;> cases x <;> simp_all [add]
  linarith

/-- Relaxing a lower bound outward by a positive finite amount only admits more. -/
theorem lt_of_lt_sub (m x : Dbl) (r : ℚ) (hr : 0 ≤ r) (h : lt x (sub m (fin r)) = true) :
    lt x m = true := by
  cases m <;> cases x <;> simp_all [sub, add, neg]
  linarith

theorem le_trans {a b c : Dbl} (h₁ : le a b = true) (h₂ : le b c = true) : le a c = true := by
  cases a <;> cases b <;> cases c <;> simp_all
  exact h₁.trans h₂

/-- On operands that are not NaN, `b < a` failing means `a <= b`. -/
theorem le_of_not_lt {a b : Dbl} (ha : a.isNaN = false) (hb : b.isNaN = false)
    (h : lt b a = false) : le a b = true := by
  rw [le_eq_not_lt ha hb, h]
  rfl

theorem not_isNaN_of_le {a b : Dbl} (h : le a b = true) : a.isNaN = false ∧ b.isNaN = false := by
  cases a <;> cases b <;> simp_all [isNaN]

theorem min_eq_left_of_not_lt {m x : Dbl} (h : lt x m = false) : min m x = m := by
  simp [min, h]

theorem max_eq_left_of_not_lt {m x : Dbl} (h : lt m x = false) : max m x = m := by
  simp [max, h]

/-- Merging `x` and then a `y` with `x <= y` into a lower bound is merging `x`. -/
theorem min_min_of_le (m x y : Dbl) (h : le x y = true) : min (min m x) y = min m x := by
  unfold min
  cases m <;> cases x <;> cases y <;> simp_all
  split_ifs <;> simp_all
  intro h'
  linarith

/-- Merging `x` and then a `y` with `x <= y` into an upper bound is merging `y`. -/
theorem max_max_of_le (m x y : Dbl) (h : le x y = true) : max (max m x) y = max m y := by
  unfold max
  cases m <;> cases x <;> cases y <;> simp_all
  all_goals try split_ifs
  all_goals try simp_all
  all_goals intros
  all_goals linarith

theorem min_isNaN {m x : Dbl} (hm : m.isNaN = false) (hx : x.isNaN = false) :
    (min m x).isNaN = false := by
  unfold min
  split_ifs <;> assumption

theorem max_isNaN {m x : Dbl} (hm : m.isNaN = false) (hx : x.isNaN = false) :
    (max m x).isNaN = false := by
  unfold max
  split_ifs <;> assumption

/-- Merging the same non-NaN coordinate into a lower and an upper bound, neither
NaN, leaves them in order, whatever their order was. -/
theorem le_min_max {m M x : Dbl} (hm : m.isNaN = false) (hM : M.isNaN = false)
    (hx : x.isNaN = false) : le (min m x) (max M x) = true :=
  le_trans (min_is_least hm hx).2.1 (max_is_greatest hM hx).2.1

theorem lt_of_lowered {m m' q : Dbl} (h : lowered m m') (hq : lt q m = false) :
    lt q m' = false := by
  rcases h with rfl | h
  · exact hq
  · by_contra hc
    rw [Bool.not_eq_false] at hc
    rw [lt_trans hc h] at hq
    exact Bool.noConfusion hq

theorem lt_of_raised {M M' q : Dbl} (h : raised M M') (hq : lt M q = false) :
    lt M' q = false := by
  rcases h with rfl | h
  · exact hq
  · by_contra hc
    rw [Bool.not_eq_false] at hc
    rw [lt_trans h hc] at hq
    exact Bool.noConfusion hq

theorem not_lt_of_lowered {m m' : Dbl} (h : lowered m m') : lt m m' = false := by
  rcases h with rfl | h
  · exact lt_irrefl _
  · exact lt_asymm h

theorem not_lt_of_raised {M M' : Dbl} (h : raised M M') : lt M' M = false := by
  rcases h with rfl | h
  · exact lt_irrefl _
  · exact lt_asymm h

theorem div_fin_fin (a b : ℚ) (hb : b ≠ 0) : div (fin a) (fin b) = fin (a / b) := by
  simp [div, hb]

/-- Dividing a finite value by `r` is multiplying it by `1 / r`. -/
theorem div_eq_mul_one_div (x : ℚ) (r : Dbl) : div (fin x) r = mul (fin x) (div (fin 1) r) := by
  cases r with
  | nan => rfl
  | ninf => simp [div, mul]
  | pinf => simp [div, mul]
  | fin b =>
    by_cases hb : b = 0
    · subst hb
      simp only [div, if_true, one_ne_zero, if_false, zero_lt_one, mul, mulInf]
      by_cases hx : x = 0
      · simp [hx]
      · by_cases hp : 0 < x <;> simp [hx, hp]
    · rw [div_fin_fin _ _ hb, div_fin_fin _ _ hb, mul_fin_fin]
      congr 1
      field_simp

end Dbl

/-! ## Facts about the operations of `BoundingBox` -/

namespace BoundingBox

/-- The receiver after `addPoint`: each bound is the `std::min` / `std::max`
of the old bound and the point's coordinate. -/
theorem addPoint_box (b : BoundingBox) (p : Point2d) :
    (b.addPoint p).2 =
      { m_minX := Dbl.min b.m_minX p.x, m_maxX := Dbl.max b.m_maxX p.x,
        m_minY := Dbl.min b.m_minY p.y, m_maxY := Dbl.max b.m_maxY p.y } := by
  simp only [addPoint, Point2d.getX, Point2d.getY, Dbl.gt, Dbl.min, Dbl.max]
  split_ifs <;> simp_all [setMinX, setMaxX, setMinY, setMaxY]

/-- The flag returned by `addPoint`: one of the four tests succeeded. -/
theorem addPoint_flag (b : BoundingBox) (p : Point2d) :
    (b.addPoint p).1 =
      (Dbl.lt p.x b.m_minX || Dbl.lt b.m_maxX p.x || Dbl.lt p.y b.m_minY
        || Dbl.lt b.m_maxY p.y) := by
  simp only [addPoint, Point2d.getX, Point2d.getY, Dbl.gt]
  split_ifs <;> simp_all [setMinX, setMaxX, setMinY, setMaxY]

theorem eq_iff_bounds (a b : BoundingBox) :
    a = b ↔ a.m_minX = b.m_minX ∧ a.m_maxX = b.m_maxX ∧ a.m_minY = b.m_minY ∧ a.m_maxY = b.m_maxY := by
  cases a; cases b; simp

theorem addPoint_flag_iff_changed (b : BoundingBox) (p : Point2d) :
    (b.addPoint p).1 = true ↔ (b.addPoint p).2 ≠ b := by
  rw [addPoint_flag, addPoint_box, Ne, eq_iff_bounds]
  simp only [Bool.or_eq_true, not_and_or, ← Ne.eq_def, Dbl.min_ne_iff, Dbl.max_ne_iff]
  tauto

theorem grow_right_comm (b : BoundingBox) (p q : Point2d) :
    (b.grow p).grow q = (b.grow q).grow p := by
  simp only [grow, addPoint_box]
  rw [Dbl.min_right_comm b.m_minX, Dbl.max_right_comm b.m_maxX,
    Dbl.min_right_comm b.m_minY, Dbl.max_right_comm b.m_maxY]

theorem grown_refl (a : BoundingBox) : grown a a :=
  ⟨Dbl.lowered_refl _, Dbl.raised_refl _, Dbl.lowered_refl _, Dbl.raised_refl _⟩

theorem grown_trans {a b c : BoundingBox} (h₁ : grown a b) (h₂ : grown b c) : grown a c :=
  ⟨Dbl.lowered_trans h₁.1 h₂.1, Dbl.raised_trans h₁.2.1 h₂.2.1,
    Dbl.lowered_trans h₁.2.2.1 h₂.2.2.1, Dbl.raised_trans h₁.2.2.2 h₂.2.2.2⟩

theorem grown_cycle {a b : BoundingBox} (h₁ : grown a b) (h₂ : grown b a) : b = a := by
  rw [eq_iff_bounds]
  exact ⟨Dbl.lowered_cycle h₁.1 h₂.1, Dbl.raised_cycle h₁.2.1 h₂.2.1,
    Dbl.lowered_cycle h₁.2.2.1 h₂.2.2.1, Dbl.raised_cycle h₁.2.2.2 h₂.2.2.2⟩

theorem grown_grow (b : BoundingBox) (p : Point2d) : grown b (b.grow p) := by
  rw [grow, addPoint_box]
  exact ⟨Dbl.lowered_min _ _, Dbl.raised_max _ _, Dbl.lowered_min _ _, Dbl.raised_max _ _⟩

theorem grown_foldl (ps : List Point2d) (b : BoundingBox) : grown b (ps.foldl grow b) := by
  induction ps generalizing b with
  | nil => exact grown_refl b
  | cons p ps ih => exact grown_trans (grown_grow b p) (ih (b.grow p))

/-- The loop of `addPoints` from any intermediate state: the receiver is the
fold of `grow`, and the flag records whether the receiver has moved. -/
theorem addPoints_loop (ps : List Point2d) (r : Bool) (b : BoundingBox) :
    ps.foldl (fun (acc : Bool × BoundingBox) p =>
        ((addPoint acc.2 p).1 || acc.1, (addPoint acc.2 p).2)) (r, b)
      = (r || decide (ps.foldl grow b ≠ b), ps.foldl grow b) := by
  induction ps generalizing r b with
  | nil => simp
  | cons p ps ih =>
    simp only [List.foldl_cons]
    rw [ih]
    have hflag : (b.addPoint p).1 = decide (b.grow p ≠ b) := by
      rw [Bool.eq_iff_iff, addPoint_flag_iff_changed]
      simp [grow]
    have h₁ : grown b (b.grow p) := grown_grow b p
    have h₂ : grown (b.grow p) (List.foldl grow (b.grow p) ps) := grown_foldl ps (b.grow p)
    have hsplit : (List.foldl grow (b.grow p) ps ≠ b) ↔
        (b.grow p ≠ b ∨ List.foldl grow (b.grow p) ps ≠ b.grow p) := by
      generalize List.foldl grow (b.grow p) ps = c at h₂
      generalize b.grow p = b₁ at h₁ h₂
      constructor
      · intro h
        by_contra hc
        rw [not_or, not_not, not_not] at hc
        exact h (hc.2.trans hc.1)
      · rintro (h | h) e
        · rw [e] at h₂
          exact h (grown_cycle h₁ h₂)
        · rw [e] at h₂ h
          exact h (grown_cycle h₁ h₂).symm
    rw [hflag]
    change _ = (r || decide (List.foldl grow (b.grow p) ps ≠ b), List.foldl grow (b.grow p) ps)
    rw [Prod.mk.injEq]
    refine ⟨?_, rfl⟩
    rw [Bool.eq_iff_iff]
    simp only [Bool.or_eq_true, decide_eq_true_eq]
    rw [hsplit]
    simp only [grow]
    tauto

theorem addPoints_box (b : BoundingBox) (ps : List Point2d) :
    (b.addPoints ps).2 = ps.foldl grow b := by
  simp only [addPoints]
  rw [addPoints_loop]

theorem addPoints_flag (b : BoundingBox) (ps : List Point2d) :
    (b.addPoints ps).1 = decide (ps.foldl grow b ≠ b) := by
  simp only [addPoints]
  rw [addPoints_loop]
  simp

theorem foldl_grow_perm {ps qs : List Point2d} (h : ps.Perm qs) (b : BoundingBox) :
    ps.foldl grow b = qs.foldl grow b :=
  h.foldl_eq' (fun p _ q _ z => grow_right_comm z p q) b

theorem leftBottomPoint_init (b : BoundingBox) :
    b.leftBottomPoint Point2d.init = { x := b.m_minX, y := b.m_minY } := rfl

theorem rightTopPoint_init (b : BoundingBox) :
    b.rightTopPoint Point2d.init = { x := b.m_maxX, y := b.m_maxY } := rfl

/-- The receiver of `add` on the growing path: both corners of `other` merged
bound by bound. -/
theorem add_grow_box (a b : BoundingBox) :
    ((a.addPoint (b.leftBottomPoint Point2d.init)).2.addPoint
        (b.rightTopPoint Point2d.init)).2 =
      { m_minX := Dbl.min (Dbl.min a.m_minX b.m_minX) b.m_maxX,
        m_maxX := Dbl.max (Dbl.max a.m_maxX b.m_minX) b.m_maxX,
        m_minY := Dbl.min (Dbl.min a.m_minY b.m_minY) b.m_maxY,
        m_maxY := Dbl.max (Dbl.max a.m_maxY b.m_minY) b.m_maxY } := by
  simp only [addPoint_box, leftBottomPoint_init, rightTopPoint_init]

theorem add_of_contains (a b : BoundingBox)
    (h : (a.contains (b.leftBottomPoint Point2d.init)
      && a.contains (b.rightTopPoint Point2d.init)) = true) : a.add b = (false, a) := by
  simp only [add, h, if_true]

theorem add_of_not_contains (a b : BoundingBox)
    (h : ¬ (a.contains (b.leftBottomPoint Point2d.init)
      && a.contains (b.rightTopPoint Point2d.init)) = true) :
    a.add b = (true, ((a.addPoint (b.leftBottomPoint Point2d.init)).2.addPoint
        (b.rightTopPoint Point2d.init)).2) := by
  simp only [add, h, Bool.false_eq_true, if_false]

/-- After the growing path of `add`, the box-in-box test on `other` succeeds
exactly when no bound of either box is NaN. -/
theorem containsBox_add_grow (a b : BoundingBox) :
    ((a.addPoint (b.leftBottomPoint Point2d.init)).2.addPoint
        (b.rightTopPoint Point2d.init)).2.containsBox b = (a.noNaN && b.noNaN) := by
  rw [add_grow_box]
  simp only [containsBox, Dbl.ge, getMinX, getMaxX, getMinY, getMaxY, Dbl.le_min_min_left,
    Dbl.le_max_max_right, noNaN]
  cases a.m_minX.isNaN <;> cases a.m_maxX.isNaN <;> cases a.m_minY.isNaN <;>
    cases a.m_maxY.isNaN <;> cases b.m_minX.isNaN <;> cases b.m_maxX.isNaN <;>
    cases b.m_minY.isNaN <;> cases b.m_maxY.isNaN <;> rfl

/-- The inclusive-range condition always implies `contains`. -/
theorem contains_of_le (B : BoundingBox) (p : Point2d)
    (h : Dbl.le B.m_minX p.x = true ∧ Dbl.le p.x B.m_maxX = true ∧
      Dbl.le B.m_minY p.y = true ∧ Dbl.le p.y B.m_maxY = true) :
    B.contains p = true := by
  simp [contains, Dbl.gt, Point2d.getX, Point2d.getY, Dbl.le_imp_not_lt h.1,
    Dbl.le_imp_not_lt h.2.1, Dbl.le_imp_not_lt h.2.2.1, Dbl.le_imp_not_lt h.2.2.2]

/-- Without NaN among the bounds and coordinates, `contains` is the
inclusive-range condition. -/
theorem contains_iff_le (B : BoundingBox) (p : Point2d) (hB : B.noNaN = true)
    (hx : p.x.isNaN = false) (hy : p.y.isNaN = false) :
    B.contains p = true ↔
      (Dbl.le B.m_minX p.x = true ∧ Dbl.le p.x B.m_maxX = true ∧
        Dbl.le B.m_minY p.y = true ∧ Dbl.le p.y B.m_maxY = true) := by
  simp only [noNaN, Bool.not_eq_true', Bool.or_eq_false_iff] at hB
  obtain ⟨⟨⟨h1, h2⟩, h3⟩, h4⟩ := hB
  rw [Dbl.le_eq_not_lt h1 hx, Dbl.le_eq_not_lt hx h2, Dbl.le_eq_not_lt h3 hy,
    Dbl.le_eq_not_lt hy h4]
  simp only [contains, Dbl.gt, Point2d.getX, Point2d.getY, Bool.not_eq_true', Bool.or_eq_false_iff]
  tauto

theorem roughContains_of_contains (B : BoundingBox) (p : Point2d) (h : B.contains p = true) :
    B.roughContains p = true := by
  simp only [contains, Dbl.gt, Point2d.getX, Point2d.getY, Bool.not_eq_true',
    Bool.or_eq_false_iff] at h
  obtain ⟨⟨⟨h1, h2⟩, h3⟩, h4⟩ := h
  simp only [roughContains, Dbl.gt, Point2d.getX, Point2d.getY, Bool.not_eq_true',
    Bool.or_eq_false_iff]
  have hr : (0 : ℚ) ≤ 1 / 100 := by norm_num
  refine ⟨⟨⟨?_, ?_⟩, ?_⟩, ?_⟩
  · by_contra hc
    rw [Bool.not_eq_false] at hc
    rw [Dbl.lt_of_add_lt _ _ _ hr hc] at h1
    exact Bool.noConfusion h1
  · by_contra hc
    rw [Bool.not_eq_false] at hc
    rw [Dbl.lt_of_lt_sub _ _ _ hr hc] at h2
    exact Bool.noConfusion h2
  · by_contra hc
    rw [Bool.not_eq_false] at hc
    rw [Dbl.lt_of_add_lt _ _ _ hr hc] at h3
    exact Bool.noConfusion h3
  · by_contra hc
    rw [Bool.not_eq_false] at hc
    rw [Dbl.lt_of_lt_sub _ _ _ hr hc] at h4
    exact Bool.noConfusion h4

/-- The box `operator*=` leaves behind when the bounds and the ratio are finite. -/
theorem operatorMulAssign_fin (a b c d r : ℚ) :
    (ofBounds (Dbl.fin a) (Dbl.fin b) (Dbl.fin c) (Dbl.fin d)).operatorMulAssign (Dbl.fin r) =
      ofBounds (Dbl.fin (1 / 2 * (a + b) - 1 / 2 * (b - a) * r))
        (Dbl.fin (1 / 2 * (a + b) + 1 / 2 * (b - a) * r))
        (Dbl.fin (1 / 2 * (c + d) - 1 / 2 * (d - c) * r))
        (Dbl.fin (1 / 2 * (c + d) + 1 / 2 * (d - c) * r)) := by
  simp [operatorMulAssign, ofBounds, center, width, height, Point2d.init, Point2d.setX,
    Point2d.setY, Point2d.getX, Point2d.getY]

theorem contains_iff (A : BoundingBox) (p : Point2d) :
    A.contains p = true ↔
      (Dbl.lt A.m_maxX p.x = false ∧ Dbl.lt p.x A.m_minX = false ∧
        Dbl.lt A.m_maxY p.y = false ∧ Dbl.lt p.y A.m_minY = false) := by
  simp only [contains, Dbl.gt, Point2d.getX, Point2d.getY, Bool.not_eq_true',
    Bool.or_eq_false_iff]
  tauto

theorem containsBox_iff (A B : BoundingBox) :
    A.containsBox B = true ↔
      (Dbl.le A.m_minX B.m_minX = true ∧ Dbl.le B.m_maxX A.m_maxX = true ∧
        Dbl.le A.m_minY B.m_minY = true ∧ Dbl.le B.m_maxY A.m_maxY = true) := by
  simp only [containsBox, Dbl.ge, getMinX, getMaxX, getMinY, getMaxY, Bool.and_eq_true]
  tauto

theorem containsCorners_iff (A B : BoundingBox) :
    A.containsCorners B = true ↔
      ((Dbl.lt A.m_maxX B.m_minX = false ∧ Dbl.lt B.m_minX A.m_minX = false ∧
          Dbl.lt A.m_maxY B.m_minY = false ∧ Dbl.lt B.m_minY A.m_minY = false) ∧
        (Dbl.lt A.m_maxX B.m_maxX = false ∧ Dbl.lt B.m_maxX A.m_minX = false ∧
          Dbl.lt A.m_maxY B.m_maxY = false ∧ Dbl.lt B.m_maxY A.m_minY = false)) := by
  simp only [containsCorners, Bool.and_eq_true, contains_iff, leftBottomPoint_init,
    rightTopPoint_init]

theorem valid_iff (B : BoundingBox) :
    B.valid = true ↔ (Dbl.le B.m_minX B.m_maxX = true ∧ Dbl.le B.m_minY B.m_maxY = true) := by
  simp only [valid, Bool.and_eq_true]

theorem noNaN_iff (B : BoundingBox) :
    B.noNaN = true ↔ (B.m_minX.isNaN = false ∧ B.m_maxX.isNaN = false ∧
      B.m_minY.isNaN = false ∧ B.m_maxY.isNaN = false) := by
  simp only [noNaN, Bool.not_eq_true', Bool.or_eq_false_iff]
  tauto

/-- For a valid `B`, the box-in-box test implies the two-corner test. -/
theorem containsCorners_of_containsBox (A B : BoundingBox) (hB : B.valid = true)
    (h : A.containsBox B = true) : A.containsCorners B = true := by
  rw [containsBox_iff] at h
  rw [valid_iff] at hB
  rw [containsCorners_iff]
  obtain ⟨h1, h2, h3, h4⟩ := h
  obtain ⟨v1, v2⟩ := hB
  exact ⟨⟨Dbl.le_imp_not_lt (Dbl.le_trans v1 h2), Dbl.le_imp_not_lt h1,
      Dbl.le_imp_not_lt (Dbl.le_trans v2 h4), Dbl.le_imp_not_lt h3⟩,
    ⟨Dbl.le_imp_not_lt h2, Dbl.le_imp_not_lt (Dbl.le_trans h1 v1),
      Dbl.le_imp_not_lt h4, Dbl.le_imp_not_lt (Dbl.le_trans h3 v2)⟩⟩

/-- For a valid `B` and a receiver without NaN, the two-corner test implies the
box-in-box test. -/
theorem containsBox_of_containsCorners (A B : BoundingBox) (hA : A.noNaN = true)
    (hB : B.valid = true) (h : A.containsCorners B = true) : A.containsBox B = true := by
  rw [containsCorners_iff] at h
  rw [valid_iff] at hB
  rw [noNaN_iff] at hA
  rw [containsBox_iff]
  obtain ⟨⟨_, l2, _, l4⟩, ⟨r1, _, r3, _⟩⟩ := h
  obtain ⟨v1, v2⟩ := hB
  obtain ⟨n1, n2, n3, n4⟩ := hA
  exact ⟨Dbl.le_of_not_lt n1 (Dbl.not_isNaN_of_le v1).1 l2,
    Dbl.le_of_not_lt (Dbl.not_isNaN_of_le v1).2 n2 r1,
    Dbl.le_of_not_lt n3 (Dbl.not_isNaN_of_le v2).1 l4,
    Dbl.le_of_not_lt (Dbl.not_isNaN_of_le v2).2 n4 r3⟩

/-- The flag kept by the loop of `addPoints`, from any intermediate state: the
incoming flag or one of the flags of the remaining `addPoint` calls. -/
theorem addPoints_loop_flag (ps : List Point2d) (r : Bool) (b : BoundingBox) :
    (ps.foldl (fun (acc : Bool × BoundingBox) p =>
        ((addPoint acc.2 p).1 || acc.1, (addPoint acc.2 p).2)) (r, b)).1
      = (r || (addPointFlags b ps).any id) := by
  induction ps generalizing r b with
  | nil => simp [addPointFlags]
  | cons p ps ih =>
    simp only [List.foldl_cons, addPointFlags, List.any_cons, id]
    rw [ih]
    cases r <;> cases (b.addPoint p).1 <;> simp

theorem addPoints_flag_any (b : BoundingBox) (ps : List Point2d) :
    (b.addPoints ps).1 = (addPointFlags b ps).any id := by
  simp only [addPoints]
  rw [addPoints_loop_flag]
  simp

/-- The receiver `add` leaves when `other` is valid: the bound-by-bound merge
of the two boxes, on the short-circuit path as on the growing path. -/
theorem add_box_of_valid (A B : BoundingBox) (hB : B.valid = true) :
    (A.add B).2 =
      { m_minX := Dbl.min A.m_minX B.m_minX, m_maxX := Dbl.max A.m_maxX B.m_maxX,
        m_minY := Dbl.min A.m_minY B.m_minY, m_maxY := Dbl.max A.m_maxY B.m_maxY } := by
  rw [valid_iff] at hB
  obtain ⟨v1, v2⟩ := hB
  by_cases h : (A.contains (B.leftBottomPoint Point2d.init)
      && A.contains (B.rightTopPoint Point2d.init)) = true
  · rw [add_of_contains A B h]
    have hc := (containsCorners_iff A B).mp h
    obtain ⟨⟨_, l2, _, l4⟩, ⟨r1, _, r3, _⟩⟩ := hc
    rw [Dbl.min_eq_left_of_not_lt l2, Dbl.max_eq_left_of_not_lt r1,
      Dbl.min_eq_left_of_not_lt l4, Dbl.max_eq_left_of_not_lt r3]
  · rw [add_of_not_contains A B h, add_grow_box, Dbl.min_min_of_le _ _ _ v1,
      Dbl.max_max_of_le _ _ _ v1, Dbl.min_min_of_le _ _ _ v2, Dbl.max_max_of_le _ _ _ v2]

/-- The empty box as receiver takes the bounds of a finite valid box. -/
theorem default_add_fin (a b c d : ℚ) (h₁ : a ≤ b) (h₂ : c ≤ d) :
    default.add (ofBounds (Dbl.fin a) (Dbl.fin b) (Dbl.fin c) (Dbl.fin d))
      = (true, ofBounds (Dbl.fin a) (Dbl.fin b) (Dbl.fin c) (Dbl.fin d)) := by
  have h : ¬ ((default.contains ((ofBounds (Dbl.fin a) (Dbl.fin b) (Dbl.fin c)
        (Dbl.fin d)).leftBottomPoint Point2d.init)
      && default.contains ((ofBounds (Dbl.fin a) (Dbl.fin b) (Dbl.fin c)
        (Dbl.fin d)).rightTopPoint Point2d.init)) = true) := by
    simp [contains_iff, leftBottomPoint_init, default, Dbl.neg, ofBounds]
  rw [add_of_not_contains _ _ h, add_grow_box]
  simp only [default, Dbl.min, Dbl.max, Dbl.neg, ofBounds, Dbl.lt_fin_pinf, Dbl.lt_ninf_fin,
    Dbl.lt_fin_fin, if_true, decide_eq_true_eq, not_lt.mpr h₁, not_lt.mpr h₂, if_false]
  have e₁ : (if a < b then Dbl.fin b else Dbl.fin a) = Dbl.fin b := by
    split_ifs with h₃
    · rfl
    · exact congrArg Dbl.fin (le_antisymm h₁ (not_lt.mp h₃))
  have e₂ : (if c < d then Dbl.fin d else Dbl.fin c) = Dbl.fin d := by
    split_ifs with h₃
    · rfl
    · exact congrArg Dbl.fin (le_antisymm h₂ (not_lt.mp h₃))
  rw [e₁, e₂]

/-- The empty box as argument blows a finite receiver up to the whole plane. -/
theorem add_default_fin (a b c d : ℚ) :
    (ofBounds (Dbl.fin a) (Dbl.fin b) (Dbl.fin c) (Dbl.fin d)).add default
      = (true, ofBounds Dbl.ninf Dbl.pinf Dbl.ninf Dbl.pinf) := by
  have h : ¬ (((ofBounds (Dbl.fin a) (Dbl.fin b) (Dbl.fin c) (Dbl.fin d)).contains
        (default.leftBottomPoint Point2d.init)
      && (ofBounds (Dbl.fin a) (Dbl.fin b) (Dbl.fin c) (Dbl.fin d)).contains
        (default.rightTopPoint Point2d.init)) = true) := by
    simp [contains_iff, leftBottomPoint_init, default, Dbl.neg, ofBounds]
  rw [add_of_not_contains _ _ h, add_grow_box]
  simp [default, Dbl.min, Dbl.max, Dbl.neg, ofBounds]

theorem point_noNaN_iff (p : Point2d) :
    p.noNaN = true ↔ (p.x.isNaN = false ∧ p.y.isNaN = false) := by
  simp only [Point2d.noNaN, Bool.not_eq_true', Bool.or_eq_false_iff]

theorem contains_grow_self (b : BoundingBox) (p : Point2d) : (b.grow p).contains p = true := by
  rw [grow, addPoint_box, contains_iff]
  exact ⟨Dbl.max_lt_self _ _, Dbl.lt_min_self _ _, Dbl.max_lt_self _ _, Dbl.lt_min_self _ _⟩

theorem noNaN_grow (b : BoundingBox) (p : Point2d) (hb : b.noNaN = true) (hp : p.noNaN = true) :
    (b.grow p).noNaN = true := by
  rw [noNaN_iff] at hb ⊢
  rw [point_noNaN_iff] at hp
  rw [grow, addPoint_box]
  exact ⟨Dbl.min_isNaN hb.1 hp.1, Dbl.max_isNaN hb.2.1 hp.1, Dbl.min_isNaN hb.2.2.1 hp.2,
    Dbl.max_isNaN hb.2.2.2 hp.2⟩

theorem valid_grow (b : BoundingBox) (p : Point2d) (hb : b.noNaN = true) (hp : p.noNaN = true) :
    (b.grow p).valid = true := by
  rw [noNaN_iff] at hb
  rw [point_noNaN_iff] at hp
  rw [grow, addPoint_box, valid_iff]
  exact ⟨Dbl.le_min_max hb.1 hb.2.1 hp.1, Dbl.le_min_max hb.2.2.1 hb.2.2.2 hp.2⟩

theorem valid_foldl_grow (ps : List Point2d) (b : BoundingBox) (hb : b.noNaN = true)
    (hne : ps ≠ []) (hps : ∀ p ∈ ps, p.noNaN = true) : (ps.foldl grow b).valid = true := by
  induction ps generalizing b with
  | nil => exact absurd rfl hne
  | cons p ps ih =>
    have hp : p.noNaN = true := hps p (List.mem_cons_self p ps)
    cases ps with
    | nil => exact valid_grow b p hb hp
    | cons q qs =>
      exact ih (b.grow p) (noNaN_grow b p hb hp) (List.cons_ne_nil q qs)
        (fun x hx => hps x (List.mem_cons_of_mem p hx))

theorem grown_add (a b : BoundingBox) : grown a (a.add b).2 := by
  by_cases h : (a.contains (b.leftBottomPoint Point2d.init)
      && a.contains (b.rightTopPoint Point2d.init)) = true
  · rw [add_of_contains a b h]
    exact grown_refl a
  · rw [add_of_not_contains a b h]
    exact grown_trans (grown_grow a _) (grown_grow _ _)

theorem contains_of_grown {a a' : BoundingBox} (h : grown a a') (q : Point2d)
    (hq : a.contains q = true) : a'.contains q = true := by
  rw [contains_iff] at hq ⊢
  exact ⟨Dbl.lt_of_raised h.2.1 hq.1, Dbl.lt_of_lowered h.1 hq.2.1,
    Dbl.lt_of_raised h.2.2.2 hq.2.2.1, Dbl.lt_of_lowered h.2.2.1 hq.2.2.2⟩

/-- The box `operator/=` leaves behind when the bounds are finite and the
ratio is finite and not zero. -/
theorem operatorDivAssign_fin (a b c d r : ℚ) (hr : r ≠ 0) :
    (ofBounds (Dbl.fin a) (Dbl.fin b) (Dbl.fin c) (Dbl.fin d)).operatorDivAssign (Dbl.fin r) =
      ofBounds (Dbl.fin (1 / 2 * (a + b) - 1 / 2 * (b - a) / r))
        (Dbl.fin (1 / 2 * (a + b) + 1 / 2 * (b - a) / r))
        (Dbl.fin (1 / 2 * (c + d) - 1 / 2 * (d - c) / r))
        (Dbl.fin (1 / 2 * (c + d) + 1 / 2 * (d - c) / r)) := by
  simp [operatorDivAssign, ofBounds, center, width, height, Point2d.init, Point2d.setX,
    Point2d.setY, Point2d.getX, Point2d.getY, Dbl.div_fin_fin _ _ hr]

end BoundingBox

/-! ## The claims -/

namespace BoundingBox

/-- C1. For every box (valid or not) and every point, `addPoint(p)` sets
`minX' = min(minX, p.x)`, `maxX' = max(maxX, p.x)`, `minY' = min(minY, p.y)`,
`maxY' = max(maxY, p.y)`, each bound on its own, where `min` and `max` are
`std::min` and `std::max` (the smaller and the larger operand when neither is
NaN, see `Dbl.min_is_least` and `Dbl.max_is_greatest`; the old bound when one
is). It returns true exactly when one of the four bounds changed, equivalently
when the box after the call differs from the box before; and
`BoundingBox(0,10,0,5).addPoint((12,3))` gives `(0,12,0,5)` and true. -/
theorem C1_addPoint_min_max (B : BoundingBox) (p : Point2d) :
    (B.addPoint p).2.m_minX = Dbl.min B.m_minX p.x ∧
    (B.addPoint p).2.m_maxX = Dbl.max B.m_maxX p.x ∧
    (B.addPoint p).2.m_minY = Dbl.min B.m_minY p.y ∧
    (B.addPoint p).2.m_maxY = Dbl.max B.m_maxY p.y ∧
    ((B.addPoint p).1 = true ↔
      ((B.addPoint p).2.m_minX ≠ B.m_minX ∨ (B.addPoint p).2.m_maxX ≠ B.m_maxX ∨
       (B.addPoint p).2.m_minY ≠ B.m_minY ∨ (B.addPoint p).2.m_maxY ≠ B.m_maxY)) ∧
    ((B.addPoint p).1 = true ↔ (B.addPoint p).2 ≠ B) ∧
    (ofBounds (Dbl.fin 0) (Dbl.fin 10) (Dbl.fin 0) (Dbl.fin 5)).addPoint
        { x := Dbl.fin 12, y := Dbl.fin 3 }
      = (true, ofBounds (Dbl.fin 0) (Dbl.fin 12) (Dbl.fin 0) (Dbl.fin 5)) := by
  refine ⟨by rw [addPoint_box], by rw [addPoint_box], by rw [addPoint_box],
    by rw [addPoint_box], ?_, addPoint_flag_iff_changed B p, by decide⟩
  rw [addPoint_flag_iff_changed, Ne, eq_iff_bounds]
  tauto

/-- C2. The default-constructed box is `(+inf, -inf, +inf, -inf)`; for every
point `p` with finite coordinates, `addPoint(p)` on it yields
`minX = maxX = p.x` and `minY = maxY = p.y`, and `valid()` is true on the
result. -/
theorem C2_addPoint_default (p : Point2d) (hx : p.x.isFinite = true)
    (hy : p.y.isFinite = true) :
    default = ofBounds Dbl.pinf Dbl.ninf Dbl.pinf Dbl.ninf ∧
    (default.addPoint p).2 = { m_minX := p.x, m_maxX := p.x, m_minY := p.y, m_maxY := p.y } ∧
    (default.addPoint p).2.valid = true := by
  refine ⟨rfl, ?_⟩
  obtain ⟨x, y⟩ := p
  cases x <;> cases y <;> simp_all [Dbl.isFinite]
  simp [addPoint_box, default, Dbl.min, Dbl.max, Dbl.neg, valid]

theorem C2_addPoint_default_witness :
    default = ofBounds Dbl.pinf Dbl.ninf Dbl.pinf Dbl.ninf ∧
    (default.addPoint { x := Dbl.fin 1, y := Dbl.fin (-2) }).2 =
        { m_minX := Dbl.fin 1, m_maxX := Dbl.fin 1, m_minY := Dbl.fin (-2),
          m_maxY := Dbl.fin (-2) } ∧
      (default.addPoint { x := Dbl.fin 1, y := Dbl.fin (-2) }).2.valid = true :=
  C2_addPoint_default { x := Dbl.fin 1, y := Dbl.fin (-2) } rfl rfl

/-- C3. For every starting box and every list of points, `addPoints` applied
to any permutation of the list produces the same four bounds and returns the
same boolean. -/
theorem C3_addPoints_perm (B : BoundingBox) (ps qs : List Point2d) (h : ps.Perm qs) :
    B.addPoints ps = B.addPoints qs := by
  apply Prod.ext
  · rw [addPoints_flag, addPoints_flag, foldl_grow_perm h]
  · rw [addPoints_box, addPoints_box, foldl_grow_perm h]

theorem C3_addPoints_perm_witness :
    (default.addPoints [{ x := Dbl.fin 1, y := Dbl.fin 5 }, { x := Dbl.fin 3, y := Dbl.fin 2 }]
      = default.addPoints [{ x := Dbl.fin 3, y := Dbl.fin 2 }, { x := Dbl.fin 1, y := Dbl.fin 5 }])
    ∧ default.addPoints [{ x := Dbl.fin 1, y := Dbl.fin 5 }, { x := Dbl.fin 3, y := Dbl.fin 2 }]
      = (true, ofBounds (Dbl.fin 1) (Dbl.fin 3) (Dbl.fin 2) (Dbl.fin 5)) :=
  ⟨C3_addPoints_perm default _ _ (List.Perm.swap _ _ []), by decide⟩

/-- C4. For every box and point, a second `addPoint(p)` right after a first
one with the same `p` returns false and leaves all four bounds as the first
call left them. -/
theorem C4_addPoint_idempotent (B : BoundingBox) (p : Point2d) :
    (B.addPoint p).2.addPoint p = (false, (B.addPoint p).2) := by
  apply Prod.ext
  · rw [addPoint_flag, addPoint_box]
    simp [Dbl.lt_min_self, Dbl.max_lt_self]
  · simp only [addPoint_box, Dbl.min_idem_right, Dbl.max_idem_right]

/-- C5 (as amended). When the receiver contains both the left-bottom and the
right-top corner of `B`, `A.add(B)` returns false and leaves `A` unchanged;
otherwise it returns true, and afterwards `A.contains(B)` holds provided no
bound of `A` or `B` is NaN (and only then). -/
theorem C5_add_short_circuit (A B : BoundingBox) :
    ((A.contains (B.leftBottomPoint Point2d.init)
        && A.contains (B.rightTopPoint Point2d.init)) = true →
      A.add B = (false, A)) ∧
    (¬ (A.contains (B.leftBottomPoint Point2d.init)
        && A.contains (B.rightTopPoint Point2d.init)) = true →
      (A.add B).1 = true ∧
      (A.noNaN = true → B.noNaN = true → (A.add B).2.containsBox B = true) ∧
      ((A.add B).2.containsBox B = true → A.noNaN = true ∧ B.noNaN = true)) := by
  refine ⟨add_of_contains A B, fun h => ?_⟩
  rw [add_of_not_contains A B h]
  refine ⟨rfl, fun ha hb => ?_, fun hc => ?_⟩
  · simp only [containsBox_add_grow, ha, hb, Bool.and_self]
  · simpa only [containsBox_add_grow, Bool.and_eq_true] using hc

theorem C5_add_short_circuit_witness :
    (ofBounds (Dbl.fin 0) (Dbl.fin 10) (Dbl.fin 0) (Dbl.fin 5)).add
        (ofBounds (Dbl.fin 2) (Dbl.fin 3) (Dbl.fin 1) (Dbl.fin 4))
      = (false, ofBounds (Dbl.fin 0) (Dbl.fin 10) (Dbl.fin 0) (Dbl.fin 5)) ∧
    ((ofBounds (Dbl.fin 0) (Dbl.fin 10) (Dbl.fin 0) (Dbl.fin 5)).add
        (ofBounds (Dbl.fin 8) (Dbl.fin 12) (Dbl.fin 1) (Dbl.fin 4))).2.containsBox
      (ofBounds (Dbl.fin 8) (Dbl.fin 12) (Dbl.fin 1) (Dbl.fin 4)) = true :=
  ⟨(C5_add_short_circuit (ofBounds (Dbl.fin 0) (Dbl.fin 10) (Dbl.fin 0) (Dbl.fin 5))
      (ofBounds (Dbl.fin 2) (Dbl.fin 3) (Dbl.fin 1) (Dbl.fin 4))).1 (by decide),
   ((C5_add_short_circuit (ofBounds (Dbl.fin 0) (Dbl.fin 10) (Dbl.fin 0) (Dbl.fin 5))
      (ofBounds (Dbl.fin 8) (Dbl.fin 12) (Dbl.fin 1) (Dbl.fin 4))).2 (by decide)).2.1
      (by decide) (by decide)⟩

/-- C5 fails as stated: with `A = (0,1,0,1)` and `B = (NaN,5,0,1)` the receiver
does not contain the right-top corner of `B`, `A.add(B)` returns true and grows
`A` to `(0,5,0,1)`, and the box-in-box test `A.contains(B)` is false
afterwards. -/
theorem C5_add_counterexample :
    ¬ ((ofBounds (Dbl.fin 0) (Dbl.fin 1) (Dbl.fin 0) (Dbl.fin 1)).contains
          ((ofBounds Dbl.nan (Dbl.fin 5) (Dbl.fin 0) (Dbl.fin 1)).leftBottomPoint Point2d.init)
        && (ofBounds (Dbl.fin 0) (Dbl.fin 1) (Dbl.fin 0) (Dbl.fin 1)).contains
          ((ofBounds Dbl.nan (Dbl.fin 5) (Dbl.fin 0) (Dbl.fin 1)).rightTopPoint Point2d.init))
        = true ∧
    (ofBounds (Dbl.fin 0) (Dbl.fin 1) (Dbl.fin 0) (Dbl.fin 1)).add
        (ofBounds Dbl.nan (Dbl.fin 5) (Dbl.fin 0) (Dbl.fin 1))
      = (true, ofBounds (Dbl.fin 0) (Dbl.fin 5) (Dbl.fin 0) (Dbl.fin 1)) ∧
    ((ofBounds (Dbl.fin 0) (Dbl.fin 1) (Dbl.fin 0) (Dbl.fin 1)).add
        (ofBounds Dbl.nan (Dbl.fin 5) (Dbl.fin 0) (Dbl.fin 1))).2.containsBox
      (ofBounds Dbl.nan (Dbl.fin 5) (Dbl.fin 0) (Dbl.fin 1)) = false := by
  decide

/-- C6. The code disagrees with the separating-axis test: for `A = (0,12,0,5)`
and `B = (6,8,1,2)`, which lies inside `A`, `A.intersects(B)` is false (the
third clause compares `B.minX = 6` with `A.maxY = 5`) while the test of the
specification is true. On the scenario of the specification,
`(0,12,0,5).intersects((20,30,20,30))`, both are false. -/
theorem C6_intersects_mixes_axes :
    (ofBounds (Dbl.fin 0) (Dbl.fin 12) (Dbl.fin 0) (Dbl.fin 5)).intersects
        (ofBounds (Dbl.fin 6) (Dbl.fin 8) (Dbl.fin 1) (Dbl.fin 2)) = false ∧
    (ofBounds (Dbl.fin 0) (Dbl.fin 12) (Dbl.fin 0) (Dbl.fin 5)).intersectsSpec
        (ofBounds (Dbl.fin 6) (Dbl.fin 8) (Dbl.fin 1) (Dbl.fin 2)) = true ∧
    (ofBounds (Dbl.fin 0) (Dbl.fin 12) (Dbl.fin 0) (Dbl.fin 5)).intersects
        (ofBounds (Dbl.fin 20) (Dbl.fin 30) (Dbl.fin 20) (Dbl.fin 30)) = false ∧
    (ofBounds (Dbl.fin 0) (Dbl.fin 12) (Dbl.fin 0) (Dbl.fin 5)).intersectsSpec
        (ofBounds (Dbl.fin 20) (Dbl.fin 30) (Dbl.fin 20) (Dbl.fin 30)) = false := by
  decide

/-- C7 (as amended). When no bound of the box and no coordinate of the point
is NaN, `B.contains(p)` is true if and only if `minX <= p.x <= maxX` and
`minY <= p.y <= maxY`; for every box and point the inclusive condition implies
`contains`; a point whose x is strictly greater than `maxX` is never contained,
in particular `maxX + e` for a finite `maxX` and `e > 0`; and
`(0,12,0,5).contains((5,2))` is true. -/
theorem C7_contains_inclusive (B : BoundingBox) (p : Point2d) :
    (B.noNaN = true → p.x.isNaN = false → p.y.isNaN = false →
      (B.contains p = true ↔
        (Dbl.le B.m_minX p.x = true ∧ Dbl.le p.x B.m_maxX = true ∧
          Dbl.le B.m_minY p.y = true ∧ Dbl.le p.y B.m_maxY = true))) ∧
    ((Dbl.le B.m_minX p.x = true ∧ Dbl.le p.x B.m_maxX = true ∧
        Dbl.le B.m_minY p.y = true ∧ Dbl.le p.y B.m_maxY = true) → B.contains p = true) ∧
    (∀ x : Dbl, Dbl.gt x B.m_maxX = true → B.contains { x := x, y := p.y } = false) ∧
    (∀ e : ℚ, B.m_maxX.isFinite = true → 0 < e →
      B.contains { x := Dbl.add B.m_maxX (Dbl.fin e), y := p.y } = false) ∧
    (ofBounds (Dbl.fin 0) (Dbl.fin 12) (Dbl.fin 0) (Dbl.fin 5)).contains
      { x := Dbl.fin 5, y := Dbl.fin 2 } = true := by
  refine ⟨contains_iff_le B p, contains_of_le B p, ?_, ?_, by decide⟩
  · intro x hx
    simp [contains, Point2d.getX, hx]
  · intro e hfin he
    obtain ⟨a, b, c, d⟩ := B
    cases b <;> simp_all [Dbl.isFinite]
    simp [contains, Point2d.getX, Dbl.gt, he]

theorem C7_contains_inclusive_witness :
    ((ofBounds (Dbl.fin 0) (Dbl.fin 12) (Dbl.fin 0) (Dbl.fin 5)).contains
        { x := Dbl.fin 12, y := Dbl.fin 0 } = true ↔
      (Dbl.le (Dbl.fin 0) (Dbl.fin 12) = true ∧ Dbl.le (Dbl.fin 12) (Dbl.fin 12) = true ∧
        Dbl.le (Dbl.fin 0) (Dbl.fin 0) = true ∧ Dbl.le (Dbl.fin 0) (Dbl.fin 5) = true)) ∧
    (ofBounds (Dbl.fin 0) (Dbl.fin 12) (Dbl.fin 0) (Dbl.fin 5)).contains
        { x := Dbl.add (Dbl.fin 12) (Dbl.fin 1), y := Dbl.fin 0 } = false :=
  ⟨(C7_contains_inclusive (ofBounds (Dbl.fin 0) (Dbl.fin 12) (Dbl.fin 0) (Dbl.fin 5))
      { x := Dbl.fin 12, y := Dbl.fin 0 }).1 rfl rfl rfl,
   (C7_contains_inclusive (ofBounds (Dbl.fin 0) (Dbl.fin 12) (Dbl.fin 0) (Dbl.fin 5))
      { x := Dbl.fin 12, y := Dbl.fin 0 }).2.2.2.1 1 rfl (by decide)⟩

/-- C7 fails as stated. The point `(NaN, 0)` is contained in `(0,1,0,1)`
although `0 <= NaN` is false; and in `(0,+inf,0,1)` the inside point `(5,0)`
moved to `x = maxX + 1 = +inf` is still contained. -/
theorem C7_contains_counterexample :
    ¬ ((ofBounds (Dbl.fin 0) (Dbl.fin 1) (Dbl.fin 0) (Dbl.fin 1)).contains
          { x := Dbl.nan, y := Dbl.fin 0 } = true ↔
        (Dbl.le (Dbl.fin 0) Dbl.nan = true ∧ Dbl.le Dbl.nan (Dbl.fin 1) = true ∧
          Dbl.le (Dbl.fin 0) (Dbl.fin 0) = true ∧ Dbl.le (Dbl.fin 0) (Dbl.fin 1) = true)) ∧
    ((ofBounds (Dbl.fin 0) Dbl.pinf (Dbl.fin 0) (Dbl.fin 1)).contains
          { x := Dbl.fin 5, y := Dbl.fin 0 } = true ∧
      (ofBounds (Dbl.fin 0) Dbl.pinf (Dbl.fin 0) (Dbl.fin 1)).contains
          { x := Dbl.add Dbl.pinf (Dbl.fin 1), y := Dbl.fin 0 } = true) := by
  decide

/-- C8. For every box and point, `contains(p)` implies `roughContains(p)`; and
for a box with finite bounds, a point exactly `0.005` outside one of the four
bounds and within the other three satisfies `roughContains` but not `contains`. -/
theorem C8_roughContains_superset (B : BoundingBox) (p : Point2d) :
    (B.contains p = true → B.roughContains p = true) ∧
    (B.finiteBounds = true →
      ((p.x = Dbl.add B.m_maxX (Dbl.fin (5 / 1000)) ∧ Dbl.le B.m_minX p.x = true ∧
          Dbl.le B.m_minY p.y = true ∧ Dbl.le p.y B.m_maxY = true) ∨
        (p.x = Dbl.sub B.m_minX (Dbl.fin (5 / 1000)) ∧ Dbl.le p.x B.m_maxX = true ∧
          Dbl.le B.m_minY p.y = true ∧ Dbl.le p.y B.m_maxY = true) ∨
        (p.y = Dbl.add B.m_maxY (Dbl.fin (5 / 1000)) ∧ Dbl.le B.m_minY p.y = true ∧
          Dbl.le B.m_minX p.x = true ∧ Dbl.le p.x B.m_maxX = true) ∨
        (p.y = Dbl.sub B.m_minY (Dbl.fin (5 / 1000)) ∧ Dbl.le p.y B.m_maxY = true ∧
          Dbl.le B.m_minX p.x = true ∧ Dbl.le p.x B.m_maxX = true)) →
      B.roughContains p = true ∧ B.contains p = false) := by
  refine ⟨roughContains_of_contains B p, ?_⟩
  intro hfin h
  obtain ⟨a, b, c, d⟩ := B
  obtain ⟨x, y⟩ := p
  cases a <;> cases b <;> cases c <;> cases d <;> simp_all [finiteBounds, Dbl.isFinite]
  rename_i a b c d
  simp only [roughContains, contains, Dbl.gt, Point2d.getX, Point2d.getY]
  rcases h with ⟨rfl, h1, h2, h3⟩ | ⟨rfl, h1, h2, h3⟩ | ⟨rfl, h1, h2, h3⟩ | ⟨rfl, h1, h2, h3⟩
  · cases y <;> simp_all
    refine ⟨⟨⟨?_, ?_⟩, ?_⟩, ?_⟩ <;> linarith
  · cases y <;> simp_all
    refine ⟨⟨⟨?_, ?_⟩, ?_⟩, ?_⟩ <;> linarith
  · cases x <;> simp_all
    refine ⟨⟨⟨?_, ?_⟩, ?_⟩, ?_⟩ <;> linarith
  · cases x <;> simp_all
    refine ⟨⟨⟨?_, ?_⟩, ?_⟩, ?_⟩ <;> linarith

theorem C8_roughContains_superset_witness :
    (ofBounds (Dbl.fin 0) (Dbl.fin 10) (Dbl.fin 0) (Dbl.fin 5)).roughContains
        { x := Dbl.add (Dbl.fin 10) (Dbl.fin (5 / 1000)), y := Dbl.fin 2 } = true ∧
    (ofBounds (Dbl.fin 0) (Dbl.fin 10) (Dbl.fin 0) (Dbl.fin 5)).contains
        { x := Dbl.add (Dbl.fin 10) (Dbl.fin (5 / 1000)), y := Dbl.fin 2 } = false :=
  (C8_roughContains_superset (ofBounds (Dbl.fin 0) (Dbl.fin 10) (Dbl.fin 0) (Dbl.fin 5))
      { x := Dbl.add (Dbl.fin 10) (Dbl.fin (5 / 1000)), y := Dbl.fin 2 }).2 rfl
    (Or.inl ⟨rfl, by simp [ofBounds]; norm_num, by decide, by decide⟩)

/-- C9 (as amended). For every box with finite bounds and every finite ratio
`r`, after `operator*=(r)` the center is unchanged,
`((minX'+maxX')/2, (minY'+maxY')/2) = ((minX+maxX)/2, (minY+maxY)/2)`, and
`width' = width * r`, `height' = height * r`, in exact arithmetic; `r = 1`
leaves all four bounds unchanged. -/
theorem C9_scale_about_center (a b c d r : ℚ) :
    ((ofBounds (Dbl.fin a) (Dbl.fin b) (Dbl.fin c) (Dbl.fin d)).operatorMulAssign
        (Dbl.fin r)).center Point2d.init
      = (ofBounds (Dbl.fin a) (Dbl.fin b) (Dbl.fin c) (Dbl.fin d)).center Point2d.init ∧
    (ofBounds (Dbl.fin a) (Dbl.fin b) (Dbl.fin c) (Dbl.fin d)).center Point2d.init
      = { x := Dbl.fin ((a + b) / 2), y := Dbl.fin ((c + d) / 2) } ∧
    ((ofBounds (Dbl.fin a) (Dbl.fin b) (Dbl.fin c) (Dbl.fin d)).operatorMulAssign
        (Dbl.fin r)).width
      = Dbl.mul (ofBounds (Dbl.fin a) (Dbl.fin b) (Dbl.fin c) (Dbl.fin d)).width (Dbl.fin r) ∧
    ((ofBounds (Dbl.fin a) (Dbl.fin b) (Dbl.fin c) (Dbl.fin d)).operatorMulAssign
        (Dbl.fin r)).height
      = Dbl.mul (ofBounds (Dbl.fin a) (Dbl.fin b) (Dbl.fin c) (Dbl.fin d)).height (Dbl.fin r) ∧
    (ofBounds (Dbl.fin a) (Dbl.fin b) (Dbl.fin c) (Dbl.fin d)).operatorMulAssign (Dbl.fin 1)
      = ofBounds (Dbl.fin a) (Dbl.fin b) (Dbl.fin c) (Dbl.fin d) := by
  rw [operatorMulAssign_fin, operatorMulAssign_fin]
  simp only [ofBounds, center, width, height, Point2d.init, Point2d.setX, Point2d.setY,
    Dbl.add_fin_fin, Dbl.sub_fin_fin, Dbl.mul_fin_fin, Point2d.mk.injEq, Dbl.fin.injEq,
    BoundingBox.mk.injEq]
  refine ⟨⟨?_, ?_⟩, ⟨?_, ?_⟩, ?_, ?_, ?_, ?_, ?_, ?_⟩ <;> ring

/-- C9 fails as stated: the box `(0,2,0,2)` has finite bounds and center
`(1,1)`; after `operator*=(+inf)` its bounds are `(-inf,+inf,-inf,+inf)` and its
center is `(NaN,NaN)`. -/
theorem C9_scale_counterexample :
    (ofBounds (Dbl.fin 0) (Dbl.fin 2) (Dbl.fin 0) (Dbl.fin 2)).finiteBounds = true ∧
    (ofBounds (Dbl.fin 0) (Dbl.fin 2) (Dbl.fin 0) (Dbl.fin 2)).center Point2d.init
      = { x := Dbl.fin 1, y := Dbl.fin 1 } ∧
    (ofBounds (Dbl.fin 0) (Dbl.fin 2) (Dbl.fin 0) (Dbl.fin 2)).operatorMulAssign Dbl.pinf
      = ofBounds Dbl.ninf Dbl.pinf Dbl.ninf Dbl.pinf ∧
    ((ofBounds (Dbl.fin 0) (Dbl.fin 2) (Dbl.fin 0) (Dbl.fin 2)).operatorMulAssign
        Dbl.pinf).center Point2d.init
      = { x := Dbl.nan, y := Dbl.nan } ∧
    ((ofBounds (Dbl.fin 0) (Dbl.fin 2) (Dbl.fin 0) (Dbl.fin 2)).operatorMulAssign
        Dbl.pinf).center Point2d.init
      ≠ (ofBounds (Dbl.fin 0) (Dbl.fin 2) (Dbl.fin 0) (Dbl.fin 2)).center Point2d.init := by
  have h : (ofBounds (Dbl.fin 0) (Dbl.fin 2) (Dbl.fin 0) (Dbl.fin 2)).operatorMulAssign Dbl.pinf
      = ofBounds Dbl.ninf Dbl.pinf Dbl.ninf Dbl.pinf := by
    simp [operatorMulAssign, ofBounds, center, width, height, Point2d.init, Point2d.setX,
      Point2d.setY, Point2d.getX, Point2d.getY, Dbl.mul, Dbl.mulInf, Dbl.sub, Dbl.add, Dbl.neg]
  rw [h]
  simp [ofBounds, finiteBounds, Dbl.isFinite, center, Point2d.init, Point2d.setX,
    Point2d.setY, Dbl.mul, Dbl.add]

/-- C10. `box[i]` returns `minX` for `i = 0`, `minY` for `i = 1`, `maxX` for
`i = 2` and `maxY` for `i = 3`, and fails with the invalid-argument error if
and only if `i` is not one of `0, 1, 2, 3`, as for `i = -1` and `i = 4`. -/
theorem C10_operatorIndex (B : BoundingBox) :
    B.operatorIndex 0 = Except.ok B.m_minX ∧
    B.operatorIndex 1 = Except.ok B.m_minY ∧
    B.operatorIndex 2 = Except.ok B.m_maxX ∧
    B.operatorIndex 3 = Except.ok B.m_maxY ∧
    (∀ i : Int, B.operatorIndex i = Except.error indexError ↔
      ¬ (i = 0 ∨ i = 1 ∨ i = 2 ∨ i = 3)) ∧
    (∀ i : Int, (∃ v, B.operatorIndex i = Except.ok v) ↔ (i = 0 ∨ i = 1 ∨ i = 2 ∨ i = 3)) ∧
    B.operatorIndex (-1) = Except.error indexError ∧
    B.operatorIndex 4 = Except.error indexError := by
  refine ⟨rfl, rfl, rfl, rfl, ?_, ?_, rfl, rfl⟩
  · intro i
    unfold operatorIndex
    split <;> simp_all
  · intro i
    unfold operatorIndex
    split <;> simp_all

/-- C11 (as amended). For every valid box `B` (`B.minX <= B.maxX` and
`B.minY <= B.maxY`): the box-in-box test `A.contains(B)` implies the two-corner
test `A.contains(B.leftBottom) && A.contains(B.rightTop)` that `add` uses, for
every box `A`; and the two tests agree whenever no bound of `A` is NaN. -/
theorem C11_two_corner_test (A B : BoundingBox) (hB : B.valid = true) :
    (A.containsBox B = true → A.containsCorners B = true) ∧
    (A.noNaN = true → (A.containsCorners B = true ↔ A.containsBox B = true)) ∧
    (A.add B).1 = !(A.containsCorners B) :=
  ⟨containsCorners_of_containsBox A B hB,
    fun hA => ⟨containsBox_of_containsCorners A B hA hB, containsCorners_of_containsBox A B hB⟩,
    by
      by_cases h : (A.contains (B.leftBottomPoint Point2d.init)
          && A.contains (B.rightTopPoint Point2d.init)) = true
      · rw [add_of_contains A B h, containsCorners, h]
        rfl
      · rw [add_of_not_contains A B h, containsCorners, Bool.not_eq_true _ |>.mp h]
        rfl⟩

theorem C11_two_corner_test_witness :
    ((ofBounds (Dbl.fin 0) (Dbl.fin 10) (Dbl.fin 0) (Dbl.fin 5)).containsCorners
        (ofBounds (Dbl.fin 2) (Dbl.fin 3) (Dbl.fin 1) (Dbl.fin 4)) = true ↔
      (ofBounds (Dbl.fin 0) (Dbl.fin 10) (Dbl.fin 0) (Dbl.fin 5)).containsBox
        (ofBounds (Dbl.fin 2) (Dbl.fin 3) (Dbl.fin 1) (Dbl.fin 4)) = true) ∧
    (ofBounds (Dbl.fin 0) (Dbl.fin 10) (Dbl.fin 0) (Dbl.fin 5)).containsBox
        (ofBounds (Dbl.fin 2) (Dbl.fin 3) (Dbl.fin 1) (Dbl.fin 4)) = true :=
  ⟨(C11_two_corner_test (ofBounds (Dbl.fin 0) (Dbl.fin 10) (Dbl.fin 0) (Dbl.fin 5))
      (ofBounds (Dbl.fin 2) (Dbl.fin 3) (Dbl.fin 1) (Dbl.fin 4)) (by decide)).2.1 (by decide),
    by decide⟩

/-- C11 fails as stated: `B = (0,1,0,1)` is valid and the receiver
`A = (NaN,1,0,1)` passes the two-corner test on it, while the box-in-box test
`A.contains(B)` is false. -/
theorem C11_two_corner_counterexample :
    (ofBounds (Dbl.fin 0) (Dbl.fin 1) (Dbl.fin 0) (Dbl.fin 1)).valid = true ∧
    ((ofBounds Dbl.nan (Dbl.fin 1) (Dbl.fin 0) (Dbl.fin 1)).contains
        ((ofBounds (Dbl.fin 0) (Dbl.fin 1) (Dbl.fin 0) (Dbl.fin 1)).leftBottomPoint Point2d.init)
      && (ofBounds Dbl.nan (Dbl.fin 1) (Dbl.fin 0) (Dbl.fin 1)).contains
        ((ofBounds (Dbl.fin 0) (Dbl.fin 1) (Dbl.fin 0) (Dbl.fin 1)).rightTopPoint Point2d.init))
      = true ∧
    (ofBounds Dbl.nan (Dbl.fin 1) (Dbl.fin 0) (Dbl.fin 1)).containsBox
        (ofBounds (Dbl.fin 0) (Dbl.fin 1) (Dbl.fin 0) (Dbl.fin 1)) = false := by
  decide

/-- C12. For every starting box and list of points, `addPoints` returns true
if and only if at least one of the individual `addPoint` calls returned true,
which holds if and only if the receiver was modified: the box after the call
differs from the box before in at least one bound. -/
theorem C12_addPoints_flag (B : BoundingBox) (ps : List Point2d) :
    ((B.addPoints ps).1 = true ↔ true ∈ addPointFlags B ps) ∧
    ((B.addPoints ps).1 = true ↔ (B.addPoints ps).2 ≠ B) ∧
    ((B.addPoints ps).2 ≠ B ↔
      ((B.addPoints ps).2.m_minX ≠ B.m_minX ∨ (B.addPoints ps).2.m_maxX ≠ B.m_maxX ∨
        (B.addPoints ps).2.m_minY ≠ B.m_minY ∨ (B.addPoints ps).2.m_maxY ≠ B.m_maxY)) := by
  refine ⟨?_, ?_, ?_⟩
  · rw [addPoints_flag_any]
    simp
  · rw [addPoints_flag, addPoints_box]
    simp
  · rw [Ne, eq_iff_bounds]
    tauto

/-- C13 (as amended). `roughContains(p)` accepts a point whose disparity from
the box is not larger than `0.01`, the tolerance of the implementation: for
every box and point, if `minX - 0.01 <= p.x <= maxX + 0.01` and
`minY - 0.01 <= p.y <= maxY + 0.01` then `roughContains(p)` is true. -/
theorem C13_roughContains_tolerance (B : BoundingBox) (p : Point2d)
    (hx₁ : Dbl.le (Dbl.sub B.m_minX (Dbl.fin (1 / 100))) p.x = true)
    (hx₂ : Dbl.le p.x (Dbl.add B.m_maxX (Dbl.fin (1 / 100))) = true)
    (hy₁ : Dbl.le (Dbl.sub B.m_minY (Dbl.fin (1 / 100))) p.y = true)
    (hy₂ : Dbl.le p.y (Dbl.add B.m_maxY (Dbl.fin (1 / 100))) = true) :
    B.roughContains p = true := by
  simp only [roughContains, Dbl.gt, Point2d.getX, Point2d.getY, Dbl.le_imp_not_lt hx₁,
    Dbl.le_imp_not_lt hx₂, Dbl.le_imp_not_lt hy₁, Dbl.le_imp_not_lt hy₂]
  rfl

theorem C13_roughContains_tolerance_witness :
    (ofBounds (Dbl.fin 0) (Dbl.fin 10) (Dbl.fin 0) (Dbl.fin 5)).roughContains
      { x := Dbl.fin (1001 / 100), y := Dbl.fin 2 } = true :=
  C13_roughContains_tolerance (ofBounds (Dbl.fin 0) (Dbl.fin 10) (Dbl.fin 0) (Dbl.fin 5))
    { x := Dbl.fin (1001 / 100), y := Dbl.fin 2 }
    (by simp [ofBounds]; norm_num) (by simp [ofBounds]; norm_num)
    (by simp [ofBounds]; norm_num) (by simp [ofBounds]; norm_num)

/-- C13 fails as stated: the point `(10.2, 2)` lies within `0.2` of the box
`(0,10,0,5)` on each axis, and `roughContains` rejects it. -/
theorem C13_roughContains_counterexample :
    (Dbl.le (Dbl.sub (Dbl.fin 0) (Dbl.fin (2 / 10))) (Dbl.fin (102 / 10)) = true ∧
      Dbl.le (Dbl.fin (102 / 10)) (Dbl.add (Dbl.fin 10) (Dbl.fin (2 / 10))) = true ∧
      Dbl.le (Dbl.sub (Dbl.fin 0) (Dbl.fin (2 / 10))) (Dbl.fin 2) = true ∧
      Dbl.le (Dbl.fin 2) (Dbl.add (Dbl.fin 5) (Dbl.fin (2 / 10))) = true) ∧
    (ofBounds (Dbl.fin 0) (Dbl.fin 10) (Dbl.fin 0) (Dbl.fin 5)).roughContains
      { x := Dbl.fin (102 / 10), y := Dbl.fin 2 } = false := by
  refine ⟨⟨?_, ?_, ?_, ?_⟩, ?_⟩
  · simp; norm_num
  · simp; norm_num
  · simp; norm_num
  · simp; norm_num
  · simp [roughContains, ofBounds, Dbl.gt, Point2d.getX, Point2d.getY]
    norm_num

/-- C14. `A += B` leaves the receiver with the bounds `A.add(B)` leaves: the
receiver itself when it contains both the left-bottom and the right-top corner
of `B`, otherwise the receiver grown by these two corners. -/
theorem C14_operatorAddAssign (A B : BoundingBox) :
    A.operatorAddAssign B = (A.add B).2 ∧
    (A.containsCorners B = true → A.operatorAddAssign B = A) ∧
    (A.containsCorners B = false → A.operatorAddAssign B =
      ((A.addPoint (B.leftBottomPoint Point2d.init)).2.addPoint
        (B.rightTopPoint Point2d.init)).2) := by
  refine ⟨rfl, fun h => ?_, fun h => ?_⟩
  · rw [operatorAddAssign, add_of_contains A B h]
  · rw [operatorAddAssign, add_of_not_contains A B (by rw [← containsCorners, h]; simp)]

theorem C14_operatorAddAssign_witness :
    (ofBounds (Dbl.fin 0) (Dbl.fin 10) (Dbl.fin 0) (Dbl.fin 5)).operatorAddAssign
        (ofBounds (Dbl.fin 8) (Dbl.fin 12) (Dbl.fin 1) (Dbl.fin 4))
      = ofBounds (Dbl.fin 0) (Dbl.fin 12) (Dbl.fin 0) (Dbl.fin 5) :=
  ((C14_operatorAddAssign (ofBounds (Dbl.fin 0) (Dbl.fin 10) (Dbl.fin 0) (Dbl.fin 5))
      (ofBounds (Dbl.fin 8) (Dbl.fin 12) (Dbl.fin 1) (Dbl.fin 4))).2.2 (by decide)).trans
    (by decide)

/-- C15 (as amended). The default-constructed (empty) box is an identity
element for `add` on the receiver side only: for every valid box `A` with
finite bounds, `BoundingBox().add(A)` returns true and leaves the receiver
with exactly the four bounds of `A`, whereas `A.add(BoundingBox())` returns
true and leaves `A` with the bounds `(-inf, +inf, -inf, +inf)`. -/
theorem C15_default_identity (A : BoundingBox) (hv : A.valid = true)
    (hf : A.finiteBounds = true) :
    default.add A = (true, A) ∧
    A.add default = (true, ofBounds Dbl.ninf Dbl.pinf Dbl.ninf Dbl.pinf) := by
  obtain ⟨a1, a2, a3, a4⟩ := A
  cases a1 <;> cases a2 <;> cases a3 <;> cases a4 <;> simp_all [finiteBounds, Dbl.isFinite]
  rename_i a b c d
  rw [valid_iff] at hv
  simp only [Dbl.le_fin_fin, decide_eq_true_eq] at hv
  exact ⟨default_add_fin a b c d hv.1 hv.2, add_default_fin a b c d⟩

theorem C15_default_identity_witness :
    default.add (ofBounds (Dbl.fin 0) (Dbl.fin 1) (Dbl.fin 0) (Dbl.fin 1))
      = (true, ofBounds (Dbl.fin 0) (Dbl.fin 1) (Dbl.fin 0) (Dbl.fin 1)) ∧
    (ofBounds (Dbl.fin 0) (Dbl.fin 1) (Dbl.fin 0) (Dbl.fin 1)).add default
      = (true, ofBounds Dbl.ninf Dbl.pinf Dbl.ninf Dbl.pinf) :=
  C15_default_identity (ofBounds (Dbl.fin 0) (Dbl.fin 1) (Dbl.fin 0) (Dbl.fin 1))
    (by decide) (by decide)

/-- C15 fails as stated: `A = (0,1,0,1)` is valid with finite bounds, the
corners of the default box are `(+inf,+inf)` and `(-inf,-inf)`, neither is
contained in `A`, and `A.add(BoundingBox())` returns true and leaves `A` with
the bounds `(-inf, +inf, -inf, +inf)`. -/
theorem C15_default_counterexample :
    (ofBounds (Dbl.fin 0) (Dbl.fin 1) (Dbl.fin 0) (Dbl.fin 1)).valid = true ∧
    (ofBounds (Dbl.fin 0) (Dbl.fin 1) (Dbl.fin 0) (Dbl.fin 1)).finiteBounds = true ∧
    default.leftBottomPoint Point2d.init = { x := Dbl.pinf, y := Dbl.pinf } ∧
    default.rightTopPoint Point2d.init = { x := Dbl.ninf, y := Dbl.ninf } ∧
    (ofBounds (Dbl.fin 0) (Dbl.fin 1) (Dbl.fin 0) (Dbl.fin 1)).add default
      = (true, ofBounds Dbl.ninf Dbl.pinf Dbl.ninf Dbl.pinf) ∧
    (ofBounds (Dbl.fin 0) (Dbl.fin 1) (Dbl.fin 0) (Dbl.fin 1)).add default
      ≠ (false, ofBounds (Dbl.fin 0) (Dbl.fin 1) (Dbl.fin 0) (Dbl.fin 1)) := by
  decide

/-- C16. A ratio below 1 shrinks the box: for every valid box with finite
bounds and every ratio `r` with `0 <= r <= 1`, the box `operator*=(r)` leaves
is valid and is contained in the original (box-in-box test), in exact
arithmetic. -/
theorem C16_scale_shrinks (B : BoundingBox) (r : Dbl) (hv : B.valid = true)
    (hf : B.finiteBounds = true) (h₀ : Dbl.le (Dbl.fin 0) r = true)
    (h₁ : Dbl.le r (Dbl.fin 1) = true) :
    (B.operatorMulAssign r).valid = true ∧ B.containsBox (B.operatorMulAssign r) = true := by
  obtain ⟨a1, a2, a3, a4⟩ := B
  cases a1 <;> cases a2 <;> cases a3 <;> cases a4 <;> simp_all [finiteBounds, Dbl.isFinite]
  rename_i a b c d
  cases r <;> simp_all
  rename_i q
  rw [valid_iff] at hv
  simp only [Dbl.le_fin_fin, decide_eq_true_eq] at hv
  obtain ⟨hab, hcd⟩ := hv
  have e := operatorMulAssign_fin a b c d q
  simp only [ofBounds] at e
  rw [e, valid_iff, containsBox_iff]
  simp only [Dbl.le_fin_fin, decide_eq_true_eq]
  have p₁ := mul_nonneg (sub_nonneg.mpr hab) h₀
  have p₂ := mul_nonneg (sub_nonneg.mpr hab) (sub_nonneg.mpr h₁)
  have p₃ := mul_nonneg (sub_nonneg.mpr hcd) h₀
  have p₄ := mul_nonneg (sub_nonneg.mpr hcd) (sub_nonneg.mpr h₁)
  refine ⟨⟨?_, ?_⟩, ?_, ?_, ?_, ?_⟩ <;> linarith

theorem C16_scale_shrinks_witness :
    ((ofBounds (Dbl.fin 0) (Dbl.fin 4) (Dbl.fin 0) (Dbl.fin 2)).operatorMulAssign
        (Dbl.fin (1 / 2))).valid = true ∧
    (ofBounds (Dbl.fin 0) (Dbl.fin 4) (Dbl.fin 0) (Dbl.fin 2)).containsBox
      ((ofBounds (Dbl.fin 0) (Dbl.fin 4) (Dbl.fin 0) (Dbl.fin 2)).operatorMulAssign
        (Dbl.fin (1 / 2))) = true :=
  C16_scale_shrinks (ofBounds (Dbl.fin 0) (Dbl.fin 4) (Dbl.fin 0) (Dbl.fin 2))
    (Dbl.fin (1 / 2)) (by decide) (by decide) (by simp) (by simp; norm_num)

/-- C17. For every receiver `A` (valid or not) and every valid box `B`, after
`A.add(B)` the receiver is the componentwise union:
`minX' = min(A.minX, B.minX)`, `maxX' = max(A.maxX, B.maxX)`,
`minY' = min(A.minY, B.minY)`, `maxY' = max(A.maxY, B.maxY)` (`std::min` and
`std::max`); in particular a default-constructed receiver becomes exactly `B`. -/
theorem C17_add_union (A B : BoundingBox) (hB : B.valid = true) :
    (A.add B).2.m_minX = Dbl.min A.m_minX B.m_minX ∧
    (A.add B).2.m_maxX = Dbl.max A.m_maxX B.m_maxX ∧
    (A.add B).2.m_minY = Dbl.min A.m_minY B.m_minY ∧
    (A.add B).2.m_maxY = Dbl.max A.m_maxY B.m_maxY ∧
    (default.add B).2 = B := by
  refine ⟨by rw [add_box_of_valid A B hB], by rw [add_box_of_valid A B hB],
    by rw [add_box_of_valid A B hB], by rw [add_box_of_valid A B hB], ?_⟩
  rw [add_box_of_valid default B hB]
  obtain ⟨b1, b2, b3, b4⟩ := B
  rw [valid_iff] at hB
  obtain ⟨v1, v2⟩ := hB
  simp only at v1 v2
  cases b1 <;> cases b2 <;> cases b3 <;> cases b4 <;>
    simp_all [default, Dbl.min, Dbl.max, Dbl.neg]

theorem C17_add_union_witness :
    ((ofBounds (Dbl.fin 0) (Dbl.fin 10) (Dbl.fin 0) (Dbl.fin 5)).add
        (ofBounds (Dbl.fin 8) (Dbl.fin 12) (Dbl.fin 1) (Dbl.fin 4))).2.m_maxX
      = Dbl.max (Dbl.fin 10) (Dbl.fin 12) ∧
    (default.add (ofBounds (Dbl.fin 8) (Dbl.fin 12) (Dbl.fin 1) (Dbl.fin 4))).2
      = ofBounds (Dbl.fin 8) (Dbl.fin 12) (Dbl.fin 1) (Dbl.fin 4) :=
  ⟨(C17_add_union (ofBounds (Dbl.fin 0) (Dbl.fin 10) (Dbl.fin 0) (Dbl.fin 5))
      (ofBounds (Dbl.fin 8) (Dbl.fin 12) (Dbl.fin 1) (Dbl.fin 4)) (by decide)).2.1,
   (C17_add_union (ofBounds (Dbl.fin 0) (Dbl.fin 10) (Dbl.fin 0) (Dbl.fin 5))
      (ofBounds (Dbl.fin 8) (Dbl.fin 12) (Dbl.fin 1) (Dbl.fin 4)) (by decide)).2.2.2.2⟩

/-- C18 (as amended). For every box `B`, including an invalid (inverted) one,
and every point `p`, `contains(p)` is true after `addPoint(p)`; and when no
bound of `B` and no coordinate of `p` is NaN, the box is valid
(`minX <= maxX` and `minY <= maxY`) after `addPoint(p)`. Hence, without NaN
among the bounds and coordinates involved, `addPoint`, `addPoints` on a
non-empty list, and `add` with a change all leave the receiver valid. -/
theorem C18_addPoint_valid (B : BoundingBox) (p : Point2d) :
    (B.addPoint p).2.contains p = true ∧
    (B.noNaN = true → p.noNaN = true → (B.addPoint p).2.valid = true) ∧
    (∀ ps : List Point2d, B.noNaN = true → ps ≠ [] → (∀ q ∈ ps, q.noNaN = true) →
      (B.addPoints ps).2.valid = true) ∧
    (∀ C : BoundingBox, B.noNaN = true → C.noNaN = true → (B.add C).1 = true →
      (B.add C).2.valid = true) := by
  refine ⟨contains_grow_self B p, valid_grow B p, ?_, ?_⟩
  · intro ps hB hne hps
    rw [addPoints_box]
    exact valid_foldl_grow ps B hB hne hps
  · intro C hB hC hflag
    by_cases h : (B.contains (C.leftBottomPoint Point2d.init)
        && B.contains (C.rightTopPoint Point2d.init)) = true
    · rw [add_of_contains B C h] at hflag
      exact absurd hflag Bool.false_ne_true
    · rw [add_of_not_contains B C h]
      rw [noNaN_iff] at hC
      have hlb : (C.leftBottomPoint Point2d.init).noNaN = true := by
        rw [leftBottomPoint_init, point_noNaN_iff]
        exact ⟨hC.1, hC.2.2.1⟩
      have hrt : (C.rightTopPoint Point2d.init).noNaN = true := by
        rw [rightTopPoint_init, point_noNaN_iff]
        exact ⟨hC.2.1, hC.2.2.2⟩
      exact valid_grow _ _ (noNaN_grow B _ hB hlb) hrt

theorem C18_addPoint_valid_witness :
    ((ofBounds (Dbl.fin 5) (Dbl.fin 0) (Dbl.fin 5) (Dbl.fin 0)).addPoint
        { x := Dbl.fin 3, y := Dbl.fin 7 }).2.valid = true ∧
    ((ofBounds (Dbl.fin 5) (Dbl.fin 0) (Dbl.fin 5) (Dbl.fin 0)).addPoint
        { x := Dbl.fin 3, y := Dbl.fin 7 }).2
      = ofBounds (Dbl.fin 3) (Dbl.fin 3) (Dbl.fin 5) (Dbl.fin 7) :=
  ⟨(C18_addPoint_valid (ofBounds (Dbl.fin 5) (Dbl.fin 0) (Dbl.fin 5) (Dbl.fin 0))
      { x := Dbl.fin 3, y := Dbl.fin 7 }).2.1 (by decide) (by decide), by decide⟩

/-- C18 fails as stated: `addPoint((NaN, 0))` on the default box returns true
and leaves `(+inf, -inf, 0, 0)`, which is not valid. -/
theorem C18_addPoint_counterexample :
    default.addPoint { x := Dbl.nan, y := Dbl.fin 0 }
      = (true, ofBounds Dbl.pinf Dbl.ninf (Dbl.fin 0) (Dbl.fin 0)) ∧
    (default.addPoint { x := Dbl.nan, y := Dbl.fin 0 }).2.valid = false := by
  decide

/-- C19. Growth never loses coverage: for every box `A` and point `q` with
`A.contains(q)`, `A.contains(q)` still holds after `addPoint(p)` for any `p`,
after `addPoints(ps)` for any list `ps`, and after `add(B)` for any box `B`;
and under each of these operations `minX` and `minY` never increase and `maxX`
and `maxY` never decrease. -/
theorem C19_growth_keeps_coverage (A : BoundingBox) (q : Point2d)
    (hq : A.contains q = true) :
    (∀ p : Point2d, (A.addPoint p).2.contains q = true) ∧
    (∀ ps : List Point2d, (A.addPoints ps).2.contains q = true) ∧
    (∀ B : BoundingBox, (A.add B).2.contains q = true) ∧
    (∀ p : Point2d, grown A (A.addPoint p).2) ∧
    (∀ ps : List Point2d, grown A (A.addPoints ps).2) ∧
    (∀ B : BoundingBox, grown A (A.add B).2) ∧
    (∀ A' : BoundingBox, grown A A' →
      Dbl.lt A.m_minX A'.m_minX = false ∧ Dbl.lt A'.m_maxX A.m_maxX = false ∧
      Dbl.lt A.m_minY A'.m_minY = false ∧ Dbl.lt A'.m_maxY A.m_maxY = false) := by
  have g₁ : ∀ p : Point2d, grown A (A.addPoint p).2 := fun p => grown_grow A p
  have g₂ : ∀ ps : List Point2d, grown A (A.addPoints ps).2 := fun ps => by
    rw [addPoints_box]
    exact grown_foldl ps A
  have g₃ : ∀ B : BoundingBox, grown A (A.add B).2 := fun B => grown_add A B
  exact ⟨fun p => contains_of_grown (g₁ p) q hq, fun ps => contains_of_grown (g₂ ps) q hq,
    fun B => contains_of_grown (g₃ B) q hq, g₁, g₂, g₃,
    fun A' h => ⟨Dbl.not_lt_of_lowered h.1, Dbl.not_lt_of_raised h.2.1,
      Dbl.not_lt_of_lowered h.2.2.1, Dbl.not_lt_of_raised h.2.2.2⟩⟩

theorem C19_growth_keeps_coverage_witness :
    ((ofBounds (Dbl.fin 0) (Dbl.fin 10) (Dbl.fin 0) (Dbl.fin 5)).addPoint
        { x := Dbl.fin 12, y := Dbl.fin 3 }).2.contains { x := Dbl.fin 5, y := Dbl.fin 2 }
      = true :=
  (C19_growth_keeps_coverage (ofBounds (Dbl.fin 0) (Dbl.fin 10) (Dbl.fin 0) (Dbl.fin 5))
    { x := Dbl.fin 5, y := Dbl.fin 2 } (by decide)).1 { x := Dbl.fin 12, y := Dbl.fin 3 }

/-- C20 (as amended). `operator/=` undoes `operator*=`: for every box with
finite bounds and every finite ratio `r != 0`, `operator*=(r)` followed by
`operator/=(r)` gives back the four bounds of the original, in exact
arithmetic; and for every ratio `r != 0`, `operator/=(r)` gives the same box as
`operator*=(1/r)`. -/
theorem C20_divide_undoes_scale (a b c d : ℚ) :
    (∀ r : ℚ, r ≠ 0 →
      ((ofBounds (Dbl.fin a) (Dbl.fin b) (Dbl.fin c) (Dbl.fin d)).operatorMulAssign
          (Dbl.fin r)).operatorDivAssign (Dbl.fin r)
        = ofBounds (Dbl.fin a) (Dbl.fin b) (Dbl.fin c) (Dbl.fin d)) ∧
    (∀ r : Dbl, r ≠ Dbl.fin 0 →
      (ofBounds (Dbl.fin a) (Dbl.fin b) (Dbl.fin c) (Dbl.fin d)).operatorDivAssign r
        = (ofBounds (Dbl.fin a) (Dbl.fin b) (Dbl.fin c) (Dbl.fin d)).operatorMulAssign
            (Dbl.div (Dbl.fin 1) r)) := by
  constructor
  · intro r hr
    rw [operatorMulAssign_fin, operatorDivAssign_fin _ _ _ _ _ hr]
    simp only [ofBounds, BoundingBox.mk.injEq, Dbl.fin.injEq]
    refine ⟨?_, ?_, ?_, ?_⟩ <;> field_simp <;> ring
  · intro r _
    simp only [operatorDivAssign, operatorMulAssign, ofBounds, width, height, Dbl.sub_fin_fin,
      Dbl.mul_fin_fin]
    rw [Dbl.div_eq_mul_one_div (1 / 2 * (b - a)) r, Dbl.div_eq_mul_one_div (1 / 2 * (d - c)) r]

theorem C20_divide_undoes_scale_witness :
    ((ofBounds (Dbl.fin 0) (Dbl.fin 4) (Dbl.fin 0) (Dbl.fin 2)).operatorMulAssign
        (Dbl.fin 3)).operatorDivAssign (Dbl.fin 3)
      = ofBounds (Dbl.fin 0) (Dbl.fin 4) (Dbl.fin 0) (Dbl.fin 2) :=
  (C20_divide_undoes_scale 0 4 0 2).1 3 (by decide)

/-- C20 fails as stated: the box `(0,2,0,2)` has finite bounds and `+inf` is
not zero; `operator*=(+inf)` leaves `(-inf,+inf,-inf,+inf)`, and `operator/=(+inf)`
on that leaves four NaN bounds, not the original. -/
theorem C20_divide_counterexample :
    (ofBounds (Dbl.fin 0) (Dbl.fin 2) (Dbl.fin 0) (Dbl.fin 2)).finiteBounds = true ∧
    (ofBounds (Dbl.fin 0) (Dbl.fin 2) (Dbl.fin 0) (Dbl.fin 2)).operatorMulAssign Dbl.pinf
      = ofBounds Dbl.ninf Dbl.pinf Dbl.ninf Dbl.pinf ∧
    (ofBounds Dbl.ninf Dbl.pinf Dbl.ninf Dbl.pinf).operatorDivAssign Dbl.pinf
      = ofBounds Dbl.nan Dbl.nan Dbl.nan Dbl.nan ∧
    ((ofBounds (Dbl.fin 0) (Dbl.fin 2) (Dbl.fin 0) (Dbl.fin 2)).operatorMulAssign
        Dbl.pinf).operatorDivAssign Dbl.pinf
      ≠ ofBounds (Dbl.fin 0) (Dbl.fin 2) (Dbl.fin 0) (Dbl.fin 2) := by
  have h : (ofBounds (Dbl.fin 0) (Dbl.fin 2) (Dbl.fin 0) (Dbl.fin 2)).operatorMulAssign Dbl.pinf
      = ofBounds Dbl.ninf Dbl.pinf Dbl.ninf Dbl.pinf := by
    simp [operatorMulAssign, ofBounds, center, width, height, Point2d.init, Point2d.setX,
      Point2d.setY, Point2d.getX, Point2d.getY, Dbl.mul, Dbl.mulInf, Dbl.sub, Dbl.add, Dbl.neg]
  have h' : (ofBounds Dbl.ninf Dbl.pinf Dbl.ninf Dbl.pinf).operatorDivAssign Dbl.pinf
      = ofBounds Dbl.nan Dbl.nan Dbl.nan Dbl.nan := by
    simp [operatorDivAssign, ofBounds, center, width, height, Point2d.init, Point2d.setX,
      Point2d.setY, Point2d.getX, Point2d.getY, Dbl.mul, Dbl.div, Dbl.sub, Dbl.add, Dbl.neg]
  rw [h, h']
  simp [ofBounds, finiteBounds, Dbl.isFinite]

end BoundingBox

end geo
